import Mathlib

/-!
Shallow embedding of `saleor/graphql/product/bulk_mutations/products.py`.

The Django ORM state is modelled as an explicit `DB` record of row lists;
every mutation is a function from `DB` to `DB` together with an optional
Python exception.  Non-atomic code returns the partially-updated state at
the point of failure; `@transaction.atomic` blocks are wrapped by
`atomicallyU` / `atomicallyV`, which restore the entry state on error.
Remote (Shopify) records are read-only inputs and are never stored.
-/

namespace Saleor

/-- Python truthiness of an optional string: `None` and `""` are falsy. -/
def truthy : Option String → Bool
  | none => false
  | some s => s != ""

/-- Python `str.lower()`, modelled per character (the code only compares
ASCII option and collection names). -/
def strLower (s : String) : String := String.mk (s.data.map Char.toLower)

/-- Python `val.replace(' ', '-')`: every single space character becomes a
hyphen; runs of spaces are NOT collapsed. -/
def replaceSpace (s : String) : String :=
  String.mk (s.data.map (fun c => if c = ' ' then '-' else c))

/-- `django.utils.text.slugify`, an external library call; modelled as
per-character lowercasing since no claim inspects slug contents. -/
def slugify (s : String) : String := strLower s

/-- One external option descriptor of a remote product (`{name, position}`). -/
structure RemoteOption where
  name : String
  position : Nat

/-- One external variant record.  `optionAt i` models
`getattr(variant, "option" + str(i))`. -/
structure RemoteVariant where
  sku : Option String
  price : Option String
  weight : Int
  weight_unit : String
  optionAt : Nat → String
  inventory_quantity : Int

/-- One external product record fetched from the remote collection. -/
structure RemoteProduct where
  id : Nat
  title : String
  body_html : Option String
  options : List RemoteOption
  variants : List RemoteVariant
  images : List String

/-- The remote collection header record. -/
structure RemoteCollection where
  id : Nat
  title : String
  body_html : Option String

/-- A local `AttributeValue` row (unique per attribute by name). -/
structure AttributeValue where
  attribute_id : Nat
  name : String
  slug : String
deriving DecidableEq

/-- A local `Product` row.  `shopifyid` is `metadata["shopifyid"]`
(absent on products that were not imported). -/
structure LocalProduct where
  id : Nat
  name : String
  slug : String
  description : String
  product_type : Nat
  category : Nat
  shopifyid : Option String
  default_variant : Option Nat
deriving DecidableEq

/-- A local `ProductVariant` row.  The `Decimal(variant.price)` literal is
carried verbatim as a string: no claim inspects its numeric value. -/
structure LocalVariant where
  id : Nat
  product_id : Nat
  sku : String
  price_amount : String
  weight_unit : String
  weight_value : Int
deriving DecidableEq

/-- A local `Stock` row. -/
structure LocalStock where
  warehouse_id : String
  variant_id : Nat
  quantity : Int
deriving DecidableEq

/-- A local `Collection` row. -/
structure LocalCollection where
  id : Nat
  name : String
  slug : String
  description : String
  shopifyid : String
deriving DecidableEq

/-- A local `MenuItem` row. -/
structure MenuItemRow where
  name : String
  collection_id : Nat
  parent_id : Nat
deriving DecidableEq

/-- Write events, recorded in order, to express write granularity
(one bulk insert vs one insert per row). -/
inductive Op where
  | productInsert (id : Nat)
  | variantInsert (id : Nat)
  | stockBulkInsert (n : Nat)
  | attrValueInsert (attribute_id : Nat) (name : String)
  | attrAssign (variant_id : Nat) (attribute_id : Nat)
  | collectionInsert (id : Nat)
  | collectionProductBulkInsert (n : Nat)
  | menuItemInsert
deriving DecidableEq

/-- Python exceptions that can escape the modelled code. -/
inductive PyErr where
  | stopIteration
  | objectDoesNotExist (msg : String)
  | doesNotExist (model : String)
  | indexError
  | assertionError
  | attributeError
  | validationError
deriving DecidableEq

/-- The modelled database.  `attributes`, `warehouses`, `product_types`,
`categories` and `menus` hold the pre-existing reference rows the importer
looks up by fixed id; `next_id` models the primary-key sequence. -/
structure DB where
  attributes : List Nat
  attribute_values : List AttributeValue
  products : List LocalProduct
  variants : List LocalVariant
  stocks : List LocalStock
  assignments : List (Nat × Nat × String)
  collections : List LocalCollection
  collection_products : List (Nat × Nat)
  menu_items : List MenuItemRow
  warehouses : List String
  product_types : List Nat
  categories : List Nat
  menus : List String
  next_id : Nat
  trace : List Op
deriving DecidableEq

/-- Value of a decimal digit character (used to prove `Nat.repr` injective,
which the collection-name disambiguation argument needs). -/
def charVal (c : Char) : Nat := c.toNat - 48

/-- Reads a decimal digit string back into a number. -/
def parseDigits (l : List Char) : Nat := l.foldl (fun a c => 10 * a + charVal c) 0

/-- Is `default_variant` either null or the id of one of the product's own
variants, for every product? -/
def defaultConsistent (db : DB) : Bool :=
  db.products.all (fun p =>
    match p.default_variant with
    | none => true
    | some d => db.variants.any (fun v => v.id == d && v.product_id == p.id))

/-- Runs a unit-valued stateful operation inside `transaction.atomic`:
the entry state is restored when the body raises. -/
def atomicallyU (f : DB → DB × Option PyErr) (db : DB) : DB × Option PyErr :=
  match f db with
  | (db1, none) => (db1, none)
  | (_, some e) => (db, some e)

/-- Runs a value-returning stateful operation inside `transaction.atomic`. -/
def atomicallyV (f : DB → (DB × List Nat) × Option PyErr) (db : DB) :
    (DB × List Nat) × Option PyErr :=
  match f db with
  | (r, none) => (r, none)
  | ((_, v), some e) => ((db, v), some e)

namespace ProductBulkCreateFromShopify

def DEF_PRODUCT_TYPE_ID : Nat := 16
def DEF_PRODUCT_CATEGORY_ID : Nat := 24
def DEF_SIZE_ATTRIBUTE_ID : Nat := 13
def DEF_COLOR_ATTRIBUTE_ID : Nat := 14
def DEF_WAREHOUSE_ID : String := "74b279b5-77a5-49d3-9ba6-789eac7a2829"
def DEF_MENU_ITEM_ID : Nat := 20

/-- Does an `AttributeValue` with this (already normalised) name exist for
this attribute?  The in-process `size_color_cache` is extended in place
whenever a value is created, so within one run it always agrees with the
database view modelled here. -/
def attrHasValue (db : DB) (attribute_id : Nat) (name : String) : Bool :=
  db.attribute_values.any (fun v => v.attribute_id == attribute_id && v.name == name)

/-- Loop body of `create_attribute_values`: normalise (the
`val.replace(' ', '-')` "data bug hack" line), then create the value only
when no value of that name exists yet for the attribute. -/
def create_attribute_value_step (attribute_id : Nat) (db : DB) (val : String) : DB :=
  let val := replaceSpace val
  if attrHasValue db attribute_id val then db
  else { db with
    attribute_values := db.attribute_values ++ [⟨attribute_id, val, slugify val⟩],
    trace := db.trace ++ [Op.attrValueInsert attribute_id val] }

/-- `create_attribute_values(attribute_id, values)`.  Cache initialisation
performs `Attribute.objects.get(pk=attribute_id)`, which raises when the
configured attribute row is missing. -/
def create_attribute_values (attribute_id : Nat) (values : List String) (db : DB) :
    DB × Option PyErr :=
  if attribute_id ∈ db.attributes then
    (values.foldl (create_attribute_value_step attribute_id) db, none)
  else (db, some (.doesNotExist "Attribute"))

/-- Django model instances are always truthy; the source checks
`if not exist_attr_val` on an instance returned by a successful `next`. -/
def instanceTruthy (_ : AttributeValue) : Bool := true

/-- `get_attribute_value(attribute_id, value)`.  When no value matches,
the bare `next(...)` raises `StopIteration`; the subsequent
`raise ObjectDoesNotExist` line of the source is unreachable because a
found instance is always truthy. -/
def get_attribute_value (db : DB) (attribute_id : Nat) (value : String) :
    Except PyErr (Nat × AttributeValue) :=
  let value := replaceSpace value
  match db.attribute_values.find?
      (fun v => v.attribute_id == attribute_id && v.name == value) with
  | none => .error .stopIteration
  | some v =>
    if ! instanceTruthy v then
      .error (.objectDoesNotExist ("attribute with value not exist: " ++ value))
    else .ok (attribute_id, v)

/-- `get_default_warehouse()`: `Warehouse.objects.get(pk=DEF_WAREHOUSE_ID)`
(the per-process cache is transparent to a single run). -/
def get_default_warehouse (db : DB) : Except PyErr String :=
  if DEF_WAREHOUSE_ID ∈ db.warehouses then .ok DEF_WAREHOUSE_ID
  else .error (.doesNotExist "Warehouse")

/-- Loop body of `get_size_color_index`. -/
def size_color_step (acc : Nat × Nat) (opt : RemoteOption) : Nat × Nat :=
  let name := strLower opt.name
  if name == "color" then (acc.1, opt.position)
  else if name == "size" then (opt.position, acc.2)
  else acc

/-- `get_size_color_index(product)`: scan `options[]`, matching names
case-insensitively; indices keep the sentinel 0 when no option matches. -/
def get_size_color_index (product : RemoteProduct) : Nat × Nat :=
  product.options.foldl size_color_step (0, 0)

/-- Guard used both by `create_variants` and `create_color_sizes`:
a variant is processed only when `sku` and `price` are both truthy. -/
def validVariant (v : RemoteVariant) : Bool := truthy v.sku && truthy v.price

/-- One iteration of the variant loop in `create_variants`: skip invalid
variants; otherwise resolve both attribute values (raising aborts the
iteration before any write), save the variant, queue its stock for the
bulk write and associate the two attribute values. -/
def create_variant_step (size_idx color_idx product_id : Nat)
    (acc : DB × List LocalStock) (v : RemoteVariant) :
    (DB × List LocalStock) × Option PyErr :=
  let (db, new_stocks) := acc
  if ! (truthy v.sku && truthy v.price) then ((db, new_stocks), none)
  else
    match get_attribute_value db DEF_SIZE_ATTRIBUTE_ID (v.optionAt size_idx) with
    | .error e => ((db, new_stocks), some e)
    | .ok (size_attr, size_val) =>
      match get_attribute_value db DEF_COLOR_ATTRIBUTE_ID (v.optionAt color_idx) with
      | .error e => ((db, new_stocks), some e)
      | .ok (color_attr, color_val) =>
        match get_default_warehouse db with
        | .error e => ((db, new_stocks), some e)
        | .ok wh =>
          let vid := db.next_id
          let newv : LocalVariant :=
            ⟨vid, product_id, v.sku.getD "", v.price.getD "", v.weight_unit, v.weight⟩
          let db := { db with
            variants := db.variants ++ [newv],
            next_id := vid + 1,
            trace := db.trace ++ [Op.variantInsert vid] }
          let news : LocalStock := ⟨wh, vid, v.inventory_quantity⟩
          let new_stocks := new_stocks ++ [news]
          let db := { db with
            assignments := db.assignments ++
              [(vid, size_attr, size_val.name), (vid, color_attr, color_val.name)],
            trace := db.trace ++
              [Op.attrAssign vid size_attr, Op.attrAssign vid color_attr] }
          ((db, new_stocks), none)

/-- The `for variant in shopify_product.variants` loop of `create_variants`. -/
def create_variants_loop (size_idx color_idx product_id : Nat) :
    List RemoteVariant → DB × List LocalStock → (DB × List LocalStock) × Option PyErr
  | [], acc => (acc, none)
  | v :: vs, acc =>
    match create_variant_step size_idx color_idx product_id acc v with
    | (acc1, none) => create_variants_loop size_idx color_idx product_id vs acc1
    | (acc1, some e) => (acc1, some e)

/-- `create_variants(product, shopify_product)`: return immediately when
either option slot index kept the sentinel 0; otherwise run the variant
loop and persist all queued stocks as one bulk write after it. -/
def create_variants (product_id : Nat) (sp : RemoteProduct) (db : DB) :
    DB × Option PyErr :=
  let (size_idx, color_idx) := get_size_color_index sp
  if ! (decide (size_idx > 0) && decide (color_idx > 0)) then (db, none)
  else
    match create_variants_loop size_idx color_idx product_id sp.variants (db, []) with
    | ((db1, new_stocks), none) =>
      ({ db1 with
          stocks := db1.stocks ++ new_stocks,
          trace := db1.trace ++ [Op.stockBulkInsert new_stocks.length] }, none)
    | ((db1, _), some e) => (db1, some e)

/-- `create_color_sizes` value collection: the deduplicated (raw, not yet
normalised) size and colour option strings over the whole batch, skipping
products whose option slots are not both resolved. -/
def collect_values (sps : List RemoteProduct) : List String × List String :=
  sps.foldl
    (fun acc sp =>
      let (size_idx, color_idx) := get_size_color_index sp
      if ! (decide (size_idx > 0) && decide (color_idx > 0)) then acc
      else
        sp.variants.foldl
          (fun (acc : List String × List String) v =>
            let s := v.optionAt size_idx
            let c := v.optionAt color_idx
            let sizes := if s ∈ acc.1 then acc.1 else acc.1 ++ [s]
            let colors := if c ∈ acc.2 then acc.2 else acc.2 ++ [c]
            (sizes, colors))
          acc)
    ([], [])

/-- `create_color_sizes(shopify_products)`: seed both attributes for the
whole batch.  NOT wrapped in `transaction.atomic` in the source. -/
def create_color_sizes (sps : List RemoteProduct) (db : DB) : DB × Option PyErr :=
  let (size_values, color_values) := collect_values sps
  match create_attribute_values DEF_SIZE_ATTRIBUTE_ID size_values db with
  | (db1, none) => create_attribute_values DEF_COLOR_ATTRIBUTE_ID color_values db1
  | (db1, some e) => (db1, some e)

/-- Loop body of `create_products`: insert the product row (published,
visible, tagged with its external id, no default variant), then run
`create_variants` for it. -/
def create_product_step (def_type def_cat : Nat)
    (acc : DB × List Nat) (sp : RemoteProduct) : (DB × List Nat) × Option PyErr :=
  let (db, created) := acc
  let pid := db.next_id
  let newp : LocalProduct :=
    { id := pid,
      name := sp.title,
      slug := slugify (sp.title ++ Nat.repr sp.id),
      description := if truthy sp.body_html then sp.body_html.getD "" else "",
      product_type := def_type,
      category := def_cat,
      shopifyid := some (Nat.repr sp.id),
      default_variant := none }
  let db := { db with
    products := db.products ++ [newp],
    next_id := pid + 1,
    trace := db.trace ++ [Op.productInsert pid] }
  match create_variants pid sp db with
  | (db1, none) => ((db1, created ++ [pid]), none)
  | (db1, some e) => ((db1, created), some e)

/-- The `for spa in shopify_products` loop of `create_products`. -/
def create_products_loop (def_type def_cat : Nat) :
    List RemoteProduct → DB × List Nat → (DB × List Nat) × Option PyErr
  | [], acc => (acc, none)
  | sp :: sps, acc =>
    match create_product_step def_type def_cat acc sp with
    | (acc1, none) => create_products_loop def_type def_cat sps acc1
    | (acc1, some e) => (acc1, some e)

/-- Body of `create_products` (the `@transaction.atomic` wrapper is applied
by the caller): resolve the fixed product type and category, then loop.
The collected image URL map is only handed to a deferred background task
and performs no database writes, so it is not modelled. -/
def create_products_inner (sps : List RemoteProduct) (db : DB) :
    (DB × List Nat) × Option PyErr :=
  if DEF_PRODUCT_TYPE_ID ∈ db.product_types then
    if DEF_PRODUCT_CATEGORY_ID ∈ db.categories then
      create_products_loop DEF_PRODUCT_TYPE_ID DEF_PRODUCT_CATEGORY_ID sps (db, [])
    else ((db, []), some (.doesNotExist "Category"))
  else ((db, []), some (.doesNotExist "ProductType"))

/-- `c.name.lower() == collection_name.lower()` membership test of the
name-disambiguation loop. -/
def nameCollides (existing : List String) (name : String) : Bool :=
  existing.any (fun c => strLower c == strLower name)

/-- `title + "(" + str(i) + ")"`. -/
def numberedName (title : String) (i : Nat) : String :=
  title ++ "(" ++ Nat.repr i ++ ")"

/-- The `while True` search of `create_collection`, written with explicit
fuel.  Each colliding candidate matches a distinct existing name
case-insensitively, so `existing.length + 1` iterations always suffice
(proved below); within that fuel this function computes exactly what the
unbounded source loop computes. -/
def pick_name_loop (existing : List String) (title : String) :
    Nat → Nat → String → String
  | 0, _, name => name
  | fuel+1, i, name =>
    if nameCollides existing name then
      pick_name_loop existing title fuel (i + 1) (numberedName title (i + 1))
    else name

/-- The collection name chosen by `create_collection`, starting from the
remote title with counter `i = 1`. -/
def pick_collection_name (existing : List String) (title : String) : String :=
  pick_name_loop existing title (existing.length + 1) 1 title

/-- The candidate name the disambiguation loop holds at counter `i`:
the bare title at `i = 1` and `title + "(" + str(i) + ")"` afterwards. -/
def loopName (title : String) (i : Nat) : String :=
  if i = 1 then title else numberedName title i

/-- The stock rows the importer queues for one product, for consecutive
variant primary keys starting at `start`. -/
def importedStocks (start : Nat) : List RemoteVariant → List LocalStock
  | [] => []
  | v :: vs =>
    ⟨DEF_WAREHOUSE_ID, start, v.inventory_quantity⟩ :: importedStocks (start + 1) vs

/-- The fixed reference rows `perform_mutation` resolves must pre-exist. -/
def configOk (db : DB) : Prop :=
  DEF_SIZE_ATTRIBUTE_ID ∈ db.attributes ∧
  DEF_COLOR_ATTRIBUTE_ID ∈ db.attributes ∧
  DEF_PRODUCT_TYPE_ID ∈ db.product_types ∧
  DEF_PRODUCT_CATEGORY_ID ∈ db.categories ∧
  "navbar" ∈ db.menus

/-- Body of `create_collection` (callers wrap it in `transaction.atomic`):
disambiguate the name against all existing collections, insert the
collection, bulk-insert the product memberships, then `create_menu_item`
(which first resolves the "navbar" menu, raising when it is missing).
Python `str(None)` is the string "None". -/
def create_collection (rc : RemoteCollection) (product_ids : List Nat) (db : DB) :
    DB × Option PyErr :=
  let collection_name := pick_collection_name (db.collections.map (·.name)) rc.title
  let cid := db.next_id
  let newc : LocalCollection :=
    ⟨cid, collection_name, slugify collection_name,
      (match rc.body_html with | some s => s | none => "None"), Nat.repr rc.id⟩
  let db := { db with
    collections := db.collections ++ [newc],
    next_id := cid + 1,
    trace := db.trace ++ [Op.collectionInsert cid] }
  let db := { db with
    collection_products := db.collection_products ++
      product_ids.map (fun p => (cid, p)),
    trace := db.trace ++ [Op.collectionProductBulkInsert product_ids.length] }
  if "navbar" ∈ db.menus then
    ({ db with
        menu_items := db.menu_items ++ [⟨collection_name, cid, DEF_MENU_ITEM_ID⟩],
        trace := db.trace ++ [Op.menuItemInsert] }, none)
  else (db, some (.doesNotExist "Menu"))

/-- The already-imported filter of `perform_mutation`:
`get_product_by_shopify_id` selects local products whose `shopifyid`
metadata is among the remote ids. -/
def get_product_by_shopify_id (db : DB) (shopify_product_ids : List String) :
    List LocalProduct :=
  db.products.filter (fun q =>
    match q.shopifyid with
    | some s => shopify_product_ids.contains s
    | none => false)

/-- The remote products surviving the external-id filter
(`str(p.id) not in exist_product_ids`). -/
def new_remote_products (db : DB) (rps : List RemoteProduct) : List RemoteProduct :=
  let shopify_product_ids := rps.map (fun p => Nat.repr p.id)
  let exist_products := get_product_by_shopify_id db shopify_product_ids
  let exist_product_ids := exist_products.filterMap (·.shopifyid)
  rps.filter (fun p => ! exist_product_ids.contains (Nat.repr p.id))

/-- `perform_mutation`: filter already-imported products by external id,
seed the size/colour attribute values (outside any transaction), create
products+variants+stocks atomically, then create the collection, its
memberships and menu item atomically; finally return the list of newly
created product ids.  `create_product_images` only schedules deferred
background work and performs no modelled writes. -/
def perform_mutation (db : DB) (rc : RemoteCollection) (rps : List RemoteProduct) :
    DB × Except PyErr (List Nat) :=
  let shopify_product_ids := rps.map (fun p => Nat.repr p.id)
  let exist_products := get_product_by_shopify_id db shopify_product_ids
  let newps := new_remote_products db rps
  match create_color_sizes newps db with
  | (db1, some e) => (db1, .error e)
  | (db1, none) =>
    match atomicallyV (create_products_inner newps) db1 with
    | ((db2, _), some e) => (db2, .error e)
    | ((db2, created), none) =>
      match atomicallyU
          (create_collection rc (created ++ exist_products.map (·.id))) db2 with
      | (db3, some e) => (db3, .error e)
      | (db3, none) => (db3, .ok created)

end ProductBulkCreateFromShopify

namespace ProductVariantBulkCreate

/-- One entry of the mutation's `variants` argument.  Its attribute and
stock payloads are consumed only through the GraphQL cleaning step, which
is framework code outside this repository and is abstracted as the
`cleanOne` parameter below; the `sku` field is read directly by
`clean_variants`. -/
structure VariantInput where
  sku : Option String

/-- The part of a cleaned input that `save_variants` consumes:
the stocks to create as `(warehouse id, quantity)` pairs. -/
structure CleanedInput where
  stocks : List (String × Int)

/-- A constructed (not yet saved) `ProductVariant` instance; only the
fields a claim inspects are carried. -/
structure VariantInstance where
  sku : String

/-- `validate_duplicated_sku`: record an error when the SKU was already
seen in this batch, then remember it. -/
def validate_duplicated_sku (sku : String) (sku_list : List String)
    (errors : List PyErr) : List String × List PyErr :=
  ((sku_list ++ [sku]),
    if sku_list.contains sku then errors ++ [.validationError] else errors)

/-- `clean_variants`: per-item cleaning (duplicate-attribute validation and
`clean_variant_input`, framework code abstracted as `cleanOne`, which
yields the cleaned input or `none` plus any per-item errors), then the
in-source duplicate-SKU check, skipped for falsy SKUs. -/
def clean_variants (cleanOne : VariantInput → Option CleanedInput × List PyErr) :
    List VariantInput → List String → List PyErr →
      List (Option CleanedInput) × List PyErr
  | [], _, errors => ([], errors)
  | v :: vs, sku_list, errors =>
    let (ci, es) := cleanOne v
    let errors := errors ++ es
    let (sku_list, errors) :=
      match v.sku with
      | some s =>
        if s != "" then validate_duplicated_sku s sku_list errors
        else (sku_list, errors)
      | none => (sku_list, errors)
    let (rest, errors1) := clean_variants cleanOne vs sku_list errors
    (ci :: rest, errors1)

/-- `create_variants`: skip `none` cleaned inputs (`continue`), construct
an instance from each remaining one (`construct_instance`/`clean_instance`,
framework code abstracted as `buildOne`), collecting validation errors. -/
def create_variants (buildOne : CleanedInput → Except PyErr VariantInstance) :
    List (Option CleanedInput) → List VariantInstance → List PyErr →
      List VariantInstance × List PyErr
  | [], insts, errors => (insts, errors)
  | none :: rest, insts, errors => create_variants buildOne rest insts errors
  | some ci :: rest, insts, errors =>
    match buildOne ci with
    | .ok inst => create_variants buildOne rest (insts ++ [inst]) errors
    | .error e => create_variants buildOne rest insts (errors ++ [e])

/-- `cls.save(...)`: `instance.save()` assigns the primary key and inserts
the row (variant-name generation from attributes is framework code with no
modelled effect). -/
def save (db : DB) (inst : VariantInstance) (product_id : Nat) : DB × Nat :=
  let vid := db.next_id
  let newv : LocalVariant := ⟨vid, product_id, inst.sku, "", "", 0⟩
  ({ db with
      variants := db.variants ++ [newv],
      next_id := vid + 1,
      trace := db.trace ++ [Op.variantInsert vid] }, vid)

/-- `create_variant_stocks`: nothing to do without stocks; otherwise
resolve every warehouse id (`get_nodes_or_error`) and bulk-insert the
stock rows (`create_stocks`). -/
def create_variant_stocks (db : DB) (vid : Nat) (ci : CleanedInput) :
    DB × Option PyErr :=
  if ci.stocks.isEmpty then (db, none)
  else if ci.stocks.all (fun s => s.1 ∈ db.warehouses) then
    ({ db with
        stocks := db.stocks ++ ci.stocks.map (fun s => ⟨s.1, vid, s.2⟩),
        trace := db.trace ++ [Op.stockBulkInsert ci.stocks.length] }, none)
  else (db, some (.doesNotExist "Warehouse"))

/-- The `for instance, cleaned_input in zip(...)` loop of `save_variants`,
also accumulating the primary keys assigned by each save.  A `none`
cleaned input paired with an instance would crash on `None.get`
(`AttributeError`). -/
def save_variants_loop (product_id : Nat) :
    List (VariantInstance × Option CleanedInput) → DB → List Nat →
      (DB × List Nat) × Option PyErr
  | [], db, ids => ((db, ids), none)
  | (_, none) :: _, db, ids => ((db, ids), some .attributeError)
  | (inst, some ci) :: rest, db, ids =>
    let (db1, vid) := save db inst product_id
    match create_variant_stocks db1 vid ci with
    | (db2, none) => save_variants_loop product_id rest db2 (ids ++ [vid])
    | (db2, some e) => ((db2, ids), some e)

/-- Body of `save_variants` (callers wrap it in `transaction.atomic`):
assert equal lengths, save every instance with its stocks, then — when the
product has no default variant — assign `instances[0]`, which evaluates
`[0]` on the (possibly empty) instance list. -/
def save_variants (db : DB) (product : LocalProduct)
    (instances : List VariantInstance)
    (cleaned_inputs : List (Option CleanedInput)) : DB × Option PyErr :=
  if instances.length != cleaned_inputs.length then (db, some .assertionError)
  else
    match save_variants_loop product.id (instances.zip cleaned_inputs) db [] with
    | ((db1, saved_ids), none) =>
      if ! product.default_variant.isSome then
        match saved_ids with
        | [] => (db1, some .indexError)
        | vid :: _ =>
          ({ db1 with
              products := db1.products.map (fun p =>
                if p.id == product.id then { p with default_variant := some vid }
                else p) }, none)
      else (db1, none)
    | ((db1, _), some e) => (db1, some e)

/-- `perform_mutation`: resolve the product, clean the inputs, construct
the instances, raise an aggregated `ValidationError` when any error was
collected, then run `save_variants` atomically and return the count of
created variants.  The minimal-variant-price recalculation is a deferred
background task with no modelled writes. -/
def perform_mutation (cleanOne : VariantInput → Option CleanedInput × List PyErr)
    (buildOne : CleanedInput → Except PyErr VariantInstance)
    (db : DB) (product_id : Nat) (variants : List VariantInput) :
    DB × Except PyErr Nat :=
  match db.products.find? (fun p => p.id == product_id) with
  | none => (db, .error (.doesNotExist "Product"))
  | some product =>
    let (cleaned_inputs, errors) := clean_variants cleanOne variants [] []
    let (instances, errors1) := create_variants buildOne cleaned_inputs [] errors
    if ! errors1.isEmpty then (db, .error .validationError)
    else
      match atomicallyU
          (fun db0 => save_variants db0 product instances cleaned_inputs) db with
      | (db1, none) => (db1, .ok instances.length)
      | (db1, some e) => (db1, .error e)

end ProductVariantBulkCreate

namespace ProductVariantBulkDelete

/-- Deletes the variant rows with the given primary keys, with their stock
rows (cascade).  Modelled from the spec: the `default_variant` foreign key
is declared outside this file with on-delete SET NULL behaviour — "A
Product's default_variant ... never dangles to a deleted variant" — so
deleting a variant nulls any `default_variant` that referenced it. -/
def delete_variants (db : DB) (pks : List Nat) : DB :=
  { db with
    variants := db.variants.filter (fun v => ! pks.contains v.id),
    stocks := db.stocks.filter (fun s => ! pks.contains s.variant_id),
    products := db.products.map (fun p =>
      match p.default_variant with
      | some d => if pks.contains d then { p with default_variant := none } else p
      | none => p) }

/-- `perform_mutation` (wrapped in `transaction.atomic` in the source):
record which products own a deleted variant, delete the variants, then
give every affected product whose `default_variant` became null its first
remaining variant (`product.variants.first()`, which is `None` when no
variant remains).  Draft-order-line cleanup touches order data outside
this embedding. -/
def perform_mutation (db : DB) (pks : List Nat) : DB :=
  let product_pks := (db.products.filter (fun p =>
    db.variants.any (fun v => pks.contains v.id && v.product_id == p.id))).map (·.id)
  let db1 := delete_variants db pks
  { db1 with
    products := db1.products.map (fun p =>
      if product_pks.contains p.id && p.default_variant == none then
        { p with default_variant :=
            ((db1.variants.filter (fun v => v.product_id == p.id)).head?).map (·.id) }
      else p) }

/-- The id of the first variant of product `pid` surviving the deletion,
in table order (`product.variants.first()` after the delete). -/
def first_surviving_variant (db : DB) (pks : List Nat) (pid : Nat) : Option Nat :=
  ((db.variants.filter (fun v => v.product_id == pid && !pks.contains v.id)).head?).map
    (fun v => v.id)

end ProductVariantBulkDelete

open ProductBulkCreateFromShopify

/-! Concrete data used by witnesses and counterexamples. -/

/-- A database holding exactly the configured reference rows and nothing
else: size/colour attributes 13/14, product type 16, category 24, the
default warehouse and the "navbar" menu. -/
def baseDB : DB :=
  { attributes := [13, 14], attribute_values := [], products := [], variants := [],
    stocks := [], assignments := [], collections := [], collection_products := [],
    menu_items := [], warehouses := [DEF_WAREHOUSE_ID], product_types := [16],
    categories := [24], menus := ["navbar"], next_id := 1, trace := [] }

/-- A remote variant whose option slot 1 is the size and slot 2 the colour. -/
def mkRemoteVariant (s p sv cv : String) (q : Int) : RemoteVariant :=
  { sku := some s, price := some p, weight := 100, weight_unit := "g",
    optionAt := fun i => if i = 1 then sv else cv, inventory_quantity := q }

/-- A remote product with size/colour options and three valid variants. -/
def teeProduct : RemoteProduct :=
  { id := 77, title := "Tee", body_html := some "d",
    options := [⟨"Size", 1⟩, ⟨"Color", 2⟩],
    variants := [mkRemoteVariant "A1" "10" "S" "Red" 3,
                 mkRemoteVariant "A2" "10" "M" "Red" 5,
                 mkRemoteVariant "A3" "10" "L" "Red" 7],
    images := [] }

/-- A remote product whose options declare a colour but no size. -/
def hatProduct : RemoteProduct :=
  { id := 5, title := "Hat", body_html := none,
    options := [⟨"Color", 1⟩],
    variants := [mkRemoteVariant "H1" "5" "X" "Red" 1],
    images := [] }

/-- A remote collection header titled "Summer". -/
def summerCollection : RemoteCollection := ⟨9, "Summer", none⟩

/-- `baseDB` after `teeProduct` was already imported (external id 77). -/
def importedDB : DB :=
  { baseDB with
    products := [⟨1, "Tee", "tee77", "d", 16, 24, some "77", none⟩],
    next_id := 2 }

/-- `baseDB` with the size value "S" and colour value "Red" seeded but no
colour value "Blue". -/
def redOnlyDB : DB :=
  { baseDB with attribute_values := [⟨13, "S", "s"⟩, ⟨14, "Red", "red"⟩] }

/-- A remote product referencing the unseeded colour value "Blue". -/
def blueProduct : RemoteProduct :=
  { id := 6, title := "Cap", body_html := none,
    options := [⟨"Size", 1⟩, ⟨"Color", 2⟩],
    variants := [mkRemoteVariant "C1" "8" "S" "Blue" 2],
    images := [] }

/-- `baseDB` with all size/colour values of `teeProduct` seeded. -/
def seededDB : DB :=
  { baseDB with attribute_values :=
      [⟨13, "S", "s"⟩, ⟨13, "M", "m"⟩, ⟨13, "L", "l"⟩, ⟨14, "Red", "red"⟩] }

/-- `baseDB` with the configured product type row missing. -/
def noTypeDB : DB := { baseDB with product_types := [] }

/-- The state after seeding `teeProduct` values into `noTypeDB`
(what persists although the creation stage aborts). -/
def noTypeSeededDB : DB :=
  (create_color_sizes (new_remote_products noTypeDB [teeProduct]) noTypeDB).1

/-- `baseDB` with collections "Summer" and "Summer(2)". -/
def summerDB : DB :=
  { baseDB with
    collections := [⟨1, "Summer", "summer", "", "90"⟩,
                    ⟨2, "Summer(2)", "summer2", "", "91"⟩],
    next_id := 3 }

/-- Two products owning one variant each, the first with a default. -/
def twoProductsDB : DB :=
  { baseDB with
    products := [⟨1, "P1", "p1", "", 16, 24, none, some 2⟩,
                 ⟨4, "P2", "p2", "", 16, 24, none, some 3⟩],
    variants := [⟨2, 1, "V1", "1", "g", 0⟩, ⟨3, 4, "V2", "1", "g", 0⟩],
    next_id := 5 }

/-- A product whose default variant (2) is about to be deleted while a
second variant (3) survives. -/
def reassignProduct : LocalProduct := ⟨1, "P1", "p1", "", 16, 24, none, some 2⟩

/-- `baseDB` holding `reassignProduct` with its two variants. -/
def reassignDB : DB :=
  { baseDB with
    products := [reassignProduct],
    variants := [⟨2, 1, "V1", "1", "g", 0⟩, ⟨3, 1, "V2", "1", "g", 0⟩],
    next_id := 4 }

/-- A product row with no default variant, inside a database. -/
def bareProduct : LocalProduct := ⟨1, "P", "p", "", 16, 24, none, none⟩

/-- `baseDB` holding only `bareProduct`. -/
def bareProductDB : DB := { baseDB with products := [bareProduct], next_id := 2 }

/-- A `cleanOne` stand-in producing no cleaned input and no errors. -/
def cleanNone : ProductVariantBulkCreate.VariantInput →
    Option ProductVariantBulkCreate.CleanedInput × List PyErr :=
  fun _ => (none, [])

/-- A `buildOne` stand-in constructing a fixed instance. -/
def buildFixed : ProductVariantBulkCreate.CleanedInput →
    Except PyErr ProductVariantBulkCreate.VariantInstance :=
  fun _ => .ok ⟨"SKU"⟩

/-! General facts about decimal printing, needed because the importer
builds names and external-id tags with `str(...)`. -/

theorem parseDigits_foldl_shift (ds : List Char) : ∀ a : Nat,
    ds.foldl (fun a c => 10 * a + charVal c) a = a * 10 ^ ds.length + parseDigits ds := by
  induction ds with
  | nil => intro a; simp [parseDigits]
  | cons c ds ih =>
    intro a
    simp only [List.foldl_cons, List.length_cons, parseDigits] at *
    rw [ih (10 * a + charVal c), ih (10 * 0 + charVal c)]
    ring

theorem charVal_digitChar (r : Nat) (h : r < 10) : charVal (Nat.digitChar r) = r := by
  interval_cases r <;> decide

theorem parseDigits_toDigitsCore (fuel : Nat) :
    ∀ (n : Nat) (ds : List Char), n < 10 ^ fuel →
    parseDigits (Nat.toDigitsCore 10 fuel n ds) = n * 10 ^ ds.length + parseDigits ds := by
  induction fuel with
  | zero =>
    intro n ds h
    simp only [Nat.pow_zero, Nat.lt_one_iff] at h
    subst h
    simp [Nat.toDigitsCore]
  | succ fuel ih =>
    intro n ds h
    rw [Nat.toDigitsCore]
    have hcons : ∀ ds1 : List Char, parseDigits (Nat.digitChar (n % 10) :: ds1) =
        (n % 10) * 10 ^ ds1.length + parseDigits ds1 := by
      intro ds1
      simp only [parseDigits, List.foldl_cons]
      rw [parseDigits_foldl_shift]
      rw [charVal_digitChar (n % 10) (Nat.mod_lt _ (by norm_num))]
      simp only [parseDigits]
      ring
    by_cases h10 : n / 10 = 0
    · simp only [h10, if_true]
      have hn : n < 10 := by omega
      rw [hcons ds, Nat.mod_eq_of_lt hn]
    · simp only [h10, if_false]
      have hlt : n / 10 < 10 ^ fuel := by
        rw [pow_succ] at h
        omega
      rw [ih (n / 10) _ hlt]
      rw [hcons ds]
      simp only [List.length_cons, pow_succ]
      have hd : 10 * (n / 10) + n % 10 = n := Nat.div_add_mod n 10
      set q := n / 10 with hq
      set r := n % 10 with hr
      rw [← hd]
      ring

theorem parseDigits_repr (n : Nat) : parseDigits (Nat.repr n).data = n := by
  show parseDigits (List.asString (Nat.toDigits 10 n)).data = n
  have hdata : (List.asString (Nat.toDigits 10 n)).data = Nat.toDigits 10 n := rfl
  rw [hdata]
  unfold Nat.toDigits
  rw [parseDigits_toDigitsCore (n + 1) n [] (by
    calc n < 10 ^ n := Nat.lt_pow_self (by norm_num) n
    _ ≤ 10 ^ (n + 1) := Nat.pow_le_pow_right (by norm_num) (Nat.le_succ n))]
  simp [parseDigits]

theorem nat_repr_injective : Function.Injective Nat.repr := by
  intro m n h
  have hm := parseDigits_repr m
  rw [h, parseDigits_repr] at hm
  omega

theorem toDigitsCore_toLower_fixed (fuel : Nat) :
    ∀ (n : Nat) (ds : List Char), (∀ c ∈ ds, Char.toLower c = c) →
    ∀ c ∈ Nat.toDigitsCore 10 fuel n ds, Char.toLower c = c := by
  induction fuel with
  | zero => intro n ds h; simpa [Nat.toDigitsCore] using h
  | succ fuel ih =>
    intro n ds h c hc
    rw [Nat.toDigitsCore] at hc
    have hd : Char.toLower (Nat.digitChar (n % 10)) = Nat.digitChar (n % 10) := by
      have hr : n % 10 < 10 := Nat.mod_lt _ (by norm_num)
      interval_cases h : (n % 10) <;> decide
    by_cases h10 : n / 10 = 0
    · simp only [h10, if_true] at hc
      rcases List.mem_cons.mp hc with h1 | h1
      · rw [h1]; exact hd
      · exact h c h1
    · simp only [h10, if_false] at hc
      refine ih (n / 10) (Nat.digitChar (n % 10) :: ds) ?_ c hc
      intro x hx
      rcases List.mem_cons.mp hx with h1 | h1
      · rw [h1]; exact hd
      · exact h x h1

theorem repr_toLower_fixed (n : Nat) : ∀ c ∈ (Nat.repr n).data, Char.toLower c = c := by
  intro c hc
  have : (Nat.repr n).data = Nat.toDigitsCore 10 (n + 1) n [] := rfl
  rw [this] at hc
  exact toDigitsCore_toLower_fixed (n + 1) n [] (by simp) c hc

theorem toDigitsCore_length_ge (fuel : Nat) :
    ∀ (n : Nat) (ds : List Char),
      ds.length ≤ (Nat.toDigitsCore 10 fuel n ds).length ∧
      (1 ≤ fuel → ds.length + 1 ≤ (Nat.toDigitsCore 10 fuel n ds).length) := by
  induction fuel with
  | zero => intro n ds; simp [Nat.toDigitsCore]
  | succ fuel ih =>
    intro n ds
    rw [Nat.toDigitsCore]
    by_cases h10 : n / 10 = 0
    · simp [h10]
    · simp only [h10, if_false]
      have h1 := (ih (n / 10) (Nat.digitChar (n % 10) :: ds)).1
      simp only [List.length_cons] at h1
      exact ⟨by omega, fun _ => by omega⟩

/-- C3: counterexample.  The normalization replaces each single space with
a hyphen and does not collapse whitespace runs: the candidate name
"Navy  Blue" is seeded as "Navy--Blue", not "Navy-Blue", and the variant
option string "Navy Blue" (which normalizes to "Navy-Blue") then fails to
resolve against it instead of resolving to the same AttributeValue. -/
theorem whitespace_not_collapsed_counterexample :
    replaceSpace "Navy  Blue" = "Navy--Blue" ∧
    replaceSpace "Navy Blue" = "Navy-Blue" ∧
    (create_attribute_values DEF_COLOR_ATTRIBUTE_ID ["Navy  Blue"]
        baseDB).1.attribute_values.map (fun v => v.name) = ["Navy--Blue"] ∧
    get_attribute_value
        (create_attribute_values DEF_COLOR_ATTRIBUTE_ID ["Navy  Blue"] baseDB).1
        DEF_COLOR_ATTRIBUTE_ID "Navy Blue" = .error .stopIteration :=
  ⟨rfl, rfl, rfl, rfl⟩

/-- C3 (amended): before any comparison or creation of AttributeValue
names, each space character is replaced by a hyphen (runs are not
collapsed), so two candidate names resolve and seed identically exactly
when their per-space normal forms agree. -/
theorem whitespace_per_space_normalization (db : DB) (attribute_id : Nat)
    (v1 v2 : String) (h : replaceSpace v1 = replaceSpace v2) :
    create_attribute_value_step attribute_id db v1 =
      create_attribute_value_step attribute_id db v2 ∧
    get_attribute_value db attribute_id v1 = get_attribute_value db attribute_id v2 := by
  unfold create_attribute_value_step get_attribute_value
  rw [h]
  exact ⟨rfl, rfl⟩

/-- Witness for the amended C3 at the concrete names of the spec example. -/
theorem whitespace_per_space_normalization_witness :
    create_attribute_value_step DEF_COLOR_ATTRIBUTE_ID baseDB "Navy-Blue" =
      create_attribute_value_step DEF_COLOR_ATTRIBUTE_ID baseDB "Navy Blue" ∧
    get_attribute_value baseDB DEF_COLOR_ATTRIBUTE_ID "Navy-Blue" =
      get_attribute_value baseDB DEF_COLOR_ATTRIBUTE_ID "Navy Blue" :=
  whitespace_per_space_normalization baseDB DEF_COLOR_ATTRIBUTE_ID
    "Navy-Blue" "Navy Blue" rfl

/-- C5: at a failing input — resolving the unseeded colour value "Blue" —
`get_attribute_value` raises `StopIteration` from the bare `next(...)`;
the `ObjectDoesNotExist` named by its own (unreachable) raise line and by
the claim is never raised.  An exact match still returns the
`(Attribute, AttributeValue)` pair, and the exception propagates out of
`create_variants`, aborting the whole run. -/
theorem missing_value_raises_stop_iteration :
    get_attribute_value redOnlyDB DEF_COLOR_ATTRIBUTE_ID "Blue" =
      .error .stopIteration ∧
    get_attribute_value redOnlyDB DEF_COLOR_ATTRIBUTE_ID "Red" =
      .ok (DEF_COLOR_ATTRIBUTE_ID, ⟨14, "Red", "red"⟩) ∧
    (create_variants 1 blueProduct redOnlyDB).2 = some .stopIteration :=
  ⟨rfl, rfl, rfl⟩

theorem create_variants_loop_filter (size_idx color_idx product_id : Nat) :
    ∀ (vs : List RemoteVariant) (acc : DB × List LocalStock),
    create_variants_loop size_idx color_idx product_id vs acc =
      create_variants_loop size_idx color_idx product_id (vs.filter validVariant) acc := by
  intro vs
  induction vs with
  | nil => intro acc; rfl
  | cons v vs ih =>
    intro acc
    by_cases hv : validVariant v = true
    · rw [List.filter_cons_of_pos hv]
      rcases hstep : create_variant_step size_idx color_idx product_id acc v with ⟨acc1, e⟩
      cases e with
      | none =>
        simp only [create_variants_loop, hstep]
        exact ih acc1
      | some e => simp only [create_variants_loop, hstep]
    · have hv1 : (truthy v.sku && truthy v.price) = false := by
        simpa [validVariant] using hv
      rw [List.filter_cons_of_neg (by simpa [validVariant] using hv)]
      have hstep : create_variant_step size_idx color_idx product_id acc v = (acc, none) := by
        rcases acc with ⟨db, ns⟩
        simp [create_variant_step, hv1]
      simp only [create_variants_loop, hstep]
      exact ih acc

/-- C7: a remote variant with a missing (or empty) `sku` or `price`
contributes no ProductVariant and no Stock, raises nothing, and the loop
continues: `create_variants` behaves exactly as if such variants were
absent from the input. -/
theorem invalid_variants_silently_skipped (product_id : Nat) (sp : RemoteProduct)
    (db : DB) :
    create_variants product_id sp db =
      create_variants product_id
        { sp with variants := sp.variants.filter validVariant } db := by
  unfold create_variants
  have hopts : get_size_color_index
      { sp with variants := sp.variants.filter validVariant } =
      get_size_color_index sp := rfl
  rw [hopts]
  rcases hsc : get_size_color_index sp with ⟨si, ci⟩
  by_cases hguard : (! (decide (si > 0) && decide (ci > 0))) = true
  · simp only [hguard, if_true]
  · simp only [Bool.not_eq_true'] at hguard
    simp only [Bool.not_eq_true', hguard, Bool.false_eq_true, if_false]
    rw [create_variants_loop_filter si ci product_id sp.variants (db, [])]

/-- C10: calling `ProductVariantBulkCreate.perform_mutation` with an empty
`variants` list on a product whose `default_variant` is null reaches
`instances[0]` on the empty instance list inside `save_variants` and
raises an uncaught IndexError, instead of returning a count-0 response,
for every choice of the framework cleaning/construction steps. -/
theorem empty_variants_index_error
    (cleanOne : ProductVariantBulkCreate.VariantInput →
      Option ProductVariantBulkCreate.CleanedInput × List PyErr)
    (buildOne : ProductVariantBulkCreate.CleanedInput →
      Except PyErr ProductVariantBulkCreate.VariantInstance)
    (db : DB) (product_id : Nat) (product : LocalProduct)
    (hfind : db.products.find? (fun p => p.id == product_id) = some product)
    (hdef : product.default_variant = none) :
    ProductVariantBulkCreate.perform_mutation cleanOne buildOne db product_id [] =
      (db, .error .indexError) := by
  unfold ProductVariantBulkCreate.perform_mutation
  rw [hfind]
  simp [ProductVariantBulkCreate.clean_variants,
    ProductVariantBulkCreate.create_variants,
    ProductVariantBulkCreate.save_variants,
    ProductVariantBulkCreate.save_variants_loop,
    atomicallyU, hdef]

/-- Witness: the concrete empty-input call raising IndexError. -/
theorem empty_variants_index_error_witness :
    ProductVariantBulkCreate.perform_mutation cleanNone buildFixed bareProductDB 1 [] =
      (bareProductDB, .error .indexError) :=
  empty_variants_index_error cleanNone buildFixed bareProductDB 1 bareProduct rfl rfl

theorem foldl_fst_of_no_size (opts : List RemoteOption) :
    ∀ acc : Nat × Nat, (∀ o ∈ opts, strLower o.name ≠ "size") →
    (opts.foldl size_color_step acc).1 = acc.1 := by
  induction opts with
  | nil => intro acc _; rfl
  | cons o opts ih =>
    intro acc h
    simp only [List.foldl_cons]
    rw [ih (size_color_step acc o) (fun x hx => h x (List.mem_cons_of_mem o hx))]
    have ho : strLower o.name ≠ "size" := h o (List.mem_cons_self o opts)
    unfold size_color_step
    by_cases hc : (strLower o.name == "color") = true
    · simp [hc]
    · have hs : (strLower o.name == "size") = false := by
        simpa using ho
      simp [hc, hs]

theorem foldl_snd_of_no_color (opts : List RemoteOption) :
    ∀ acc : Nat × Nat, (∀ o ∈ opts, strLower o.name ≠ "color") →
    (opts.foldl size_color_step acc).2 = acc.2 := by
  induction opts with
  | nil => intro acc _; rfl
  | cons o opts ih =>
    intro acc h
    simp only [List.foldl_cons]
    rw [ih (size_color_step acc o) (fun x hx => h x (List.mem_cons_of_mem o hx))]
    have ho : strLower o.name ≠ "color" := h o (List.mem_cons_self o opts)
    have hc : (strLower o.name == "color") = false := by
      simpa using ho
    unfold size_color_step
    by_cases hs : (strLower o.name == "size") = true
    · simp [hc, hs]
    · simp [hc, hs]

theorem create_variants_no_slot (product_id : Nat) (sp : RemoteProduct) (db : DB)
    (h : (get_size_color_index sp).1 = 0 ∨ (get_size_color_index sp).2 = 0) :
    create_variants product_id sp db = (db, none) := by
  unfold create_variants
  rcases hsc : get_size_color_index sp with ⟨si, ci⟩
  rw [hsc] at h
  have hguard : (! (decide (si > 0) && decide (ci > 0))) = true := by
    rcases h with h | h <;> simp_all
  simp [hguard]

/-- C6: a remote product lacking an option named "size" or lacking one
named "color" (case-insensitively; the slot index keeps the sentinel 0)
still gets its Product row, but with zero variants and zero stocks: the
whole variant set is skipped, never partially imported. -/
theorem missing_option_product_without_variants (def_type def_cat : Nat)
    (db : DB) (created : List Nat) (sp : RemoteProduct)
    (h : (∀ o ∈ sp.options, strLower o.name ≠ "size") ∨
         (∀ o ∈ sp.options, strLower o.name ≠ "color")) :
    ∃ db1 newp,
      create_product_step def_type def_cat (db, created) sp =
        ((db1, created ++ [db.next_id]), none) ∧
      db1.products = db.products ++ [newp] ∧
      newp.shopifyid = some (Nat.repr sp.id) ∧
      newp.default_variant = none ∧
      db1.variants = db.variants ∧
      db1.stocks = db.stocks := by
  have hidx : (get_size_color_index sp).1 = 0 ∨ (get_size_color_index sp).2 = 0 := by
    rcases h with h | h
    · exact Or.inl (foldl_fst_of_no_size sp.options (0, 0) h)
    · exact Or.inr (foldl_snd_of_no_color sp.options (0, 0) h)
  unfold create_product_step
  dsimp only
  rw [create_variants_no_slot db.next_id sp _ hidx]
  exact ⟨_, _, rfl, rfl, rfl, rfl, rfl, rfl⟩

/-- Witness for C6 at the concrete product lacking a size option. -/
theorem missing_option_product_without_variants_witness :
    ∃ db1 newp,
      create_product_step DEF_PRODUCT_TYPE_ID DEF_PRODUCT_CATEGORY_ID
          (baseDB, []) hatProduct = ((db1, [] ++ [baseDB.next_id]), none) ∧
      db1.products = baseDB.products ++ [newp] ∧
      newp.shopifyid = some (Nat.repr hatProduct.id) ∧
      newp.default_variant = none ∧
      db1.variants = baseDB.variants ∧
      db1.stocks = baseDB.stocks :=
  missing_option_product_without_variants DEF_PRODUCT_TYPE_ID
    DEF_PRODUCT_CATEGORY_ID baseDB [] hatProduct (Or.inl (by decide))

theorem attrHasValue_find (db : DB) (aid : Nat) (name : String)
    (h : attrHasValue db aid name = true) :
    ∃ y, db.attribute_values.find?
      (fun v => v.attribute_id == aid && v.name == name) = some y := by
  cases hf : db.attribute_values.find?
      (fun v => v.attribute_id == aid && v.name == name) with
  | some y => exact ⟨y, rfl⟩
  | none =>
    exfalso
    unfold attrHasValue at h
    obtain ⟨x, hx, hpx⟩ := List.any_eq_true.mp h
    exact absurd hpx (by simpa using List.find?_eq_none.mp hf x hx)

theorem get_attribute_value_ok (db : DB) (aid : Nat) (value : String)
    (y : AttributeValue)
    (hfind : db.attribute_values.find?
      (fun v => v.attribute_id == aid && v.name == replaceSpace value) = some y) :
    get_attribute_value db aid value = .ok (aid, y) := by
  unfold get_attribute_value
  dsimp only
  rw [hfind]
  simp [instanceTruthy]

theorem get_default_warehouse_ok (db : DB) (h : DEF_WAREHOUSE_ID ∈ db.warehouses) :
    get_default_warehouse db = .ok DEF_WAREHOUSE_ID := by
  unfold get_default_warehouse
  rw [if_pos h]

theorem create_variant_step_valid (size_idx color_idx product_id : Nat)
    (db : DB) (acc : List LocalStock) (v : RemoteVariant)
    (hv : validVariant v = true)
    (h1 : attrHasValue db DEF_SIZE_ATTRIBUTE_ID
      (replaceSpace (v.optionAt size_idx)) = true)
    (h2 : attrHasValue db DEF_COLOR_ATTRIBUTE_ID
      (replaceSpace (v.optionAt color_idx)) = true)
    (hwh : DEF_WAREHOUSE_ID ∈ db.warehouses) :
    ∃ db1,
      create_variant_step size_idx color_idx product_id (db, acc) v =
        ((db1, acc ++ [⟨DEF_WAREHOUSE_ID, db.next_id, v.inventory_quantity⟩]), none) ∧
      db1.stocks = db.stocks ∧
      db1.attribute_values = db.attribute_values ∧
      db1.warehouses = db.warehouses ∧
      db1.products = db.products ∧
      db1.next_id = db.next_id + 1 ∧
      db1.trace = db.trace ++ [Op.variantInsert db.next_id,
        Op.attrAssign db.next_id DEF_SIZE_ATTRIBUTE_ID,
        Op.attrAssign db.next_id DEF_COLOR_ATTRIBUTE_ID] := by
  obtain ⟨y1, hf1⟩ := attrHasValue_find db _ _ h1
  obtain ⟨y2, hf2⟩ := attrHasValue_find db _ _ h2
  have hs : (truthy v.sku && truthy v.price) = true := hv
  unfold create_variant_step
  dsimp only
  rw [hs, get_attribute_value_ok db _ _ y1 hf1, get_attribute_value_ok db _ _ y2 hf2,
    get_default_warehouse_ok db hwh]
  refine ⟨_, rfl, rfl, rfl, rfl, rfl, rfl, ?_⟩
  simp

theorem importedStocks_length (start : Nat) (vs : List RemoteVariant) :
    (importedStocks start vs).length = vs.length := by
  induction vs generalizing start with
  | nil => rfl
  | cons v vs ih => simp [importedStocks, ih]

theorem importedStocks_warehouse (start : Nat) (vs : List RemoteVariant) :
    ∀ s ∈ importedStocks start vs, s.warehouse_id = DEF_WAREHOUSE_ID := by
  induction vs generalizing start with
  | nil => intro s hs; cases hs
  | cons v vs ih =>
    intro s hs
    rcases List.mem_cons.mp hs with h | h
    · rw [h]
    · exact ih (start + 1) s h

theorem importedStocks_quantities (start : Nat) (vs : List RemoteVariant) :
    (importedStocks start vs).map (fun s => s.quantity) =
      vs.map (fun v => v.inventory_quantity) := by
  induction vs generalizing start with
  | nil => rfl
  | cons v vs ih => simp [importedStocks, ih]

theorem create_variants_loop_ok (size_idx color_idx product_id : Nat) :
    ∀ (vs : List RemoteVariant) (db : DB) (acc : List LocalStock),
    DEF_WAREHOUSE_ID ∈ db.warehouses →
    (∀ v ∈ vs, validVariant v = true →
      attrHasValue db DEF_SIZE_ATTRIBUTE_ID
        (replaceSpace (v.optionAt size_idx)) = true ∧
      attrHasValue db DEF_COLOR_ATTRIBUTE_ID
        (replaceSpace (v.optionAt color_idx)) = true) →
    ∃ db1,
      create_variants_loop size_idx color_idx product_id vs (db, acc) =
        ((db1, acc ++ importedStocks db.next_id (vs.filter validVariant)), none) ∧
      db1.stocks = db.stocks ∧
      db1.attribute_values = db.attribute_values ∧
      db1.warehouses = db.warehouses ∧
      db1.products = db.products ∧
      db1.next_id = db.next_id + (vs.filter validVariant).length ∧
      ∃ ops, db1.trace = db.trace ++ ops ∧ ∀ k, Op.stockBulkInsert k ∉ ops := by
  intro vs
  induction vs with
  | nil =>
    intro db acc hwh _
    exact ⟨db, by simp [create_variants_loop, importedStocks], rfl, rfl, rfl, rfl,
      by simp, ⟨[], by simp, by simp⟩⟩
  | cons v vs ih =>
    intro db acc hwh hvals
    by_cases hv : validVariant v = true
    · obtain ⟨h1, h2⟩ := hvals v (List.mem_cons_self v vs) hv
      obtain ⟨db2, hstep, hst2, hav2, hwh2, hpr2, hni2, htr2⟩ :=
        create_variant_step_valid size_idx color_idx product_id db acc v hv h1 h2 hwh
      have hvals2 : ∀ v1 ∈ vs, validVariant v1 = true →
          attrHasValue db2 DEF_SIZE_ATTRIBUTE_ID
            (replaceSpace (v1.optionAt size_idx)) = true ∧
          attrHasValue db2 DEF_COLOR_ATTRIBUTE_ID
            (replaceSpace (v1.optionAt color_idx)) = true := by
        intro v1 hv1 hval
        have hb := hvals v1 (List.mem_cons_of_mem v hv1) hval
        unfold attrHasValue
        rw [hav2]
        exact hb
      obtain ⟨db3, hloop, hst3, hav3, hwh3, hpr3, hni3, ops3, htr3, hnb3⟩ :=
        ih db2 (acc ++ [⟨DEF_WAREHOUSE_ID, db.next_id, v.inventory_quantity⟩])
          (hwh2 ▸ hwh) hvals2
      refine ⟨db3, ?_, ?_, ?_, ?_, ?_, ?_,
        [Op.variantInsert db.next_id,
          Op.attrAssign db.next_id DEF_SIZE_ATTRIBUTE_ID,
          Op.attrAssign db.next_id DEF_COLOR_ATTRIBUTE_ID] ++ ops3, ?_, ?_⟩
      · simp only [create_variants_loop, hstep]
        rw [hloop, List.filter_cons_of_pos hv, importedStocks, hni2]
        simp [List.append_assoc]
      · rw [hst3, hst2]
      · rw [hav3, hav2]
      · rw [hwh3, hwh2]
      · rw [hpr3, hpr2]
      · rw [hni3, hni2, List.filter_cons_of_pos hv]
        simp only [List.length_cons]
        omega
      · rw [htr3, htr2, List.append_assoc]
      · intro k hk
        rcases List.mem_append.mp hk with h | h
        · simp at h
        · exact hnb3 k h
    · have hv1 : (truthy v.sku && truthy v.price) = false := by
        simpa [validVariant] using hv
      have hstep : create_variant_step size_idx color_idx product_id (db, acc) v =
          ((db, acc), none) := by
        simp [create_variant_step, hv1]
      have hvals2 : ∀ v1 ∈ vs, validVariant v1 = true →
          attrHasValue db DEF_SIZE_ATTRIBUTE_ID
            (replaceSpace (v1.optionAt size_idx)) = true ∧
          attrHasValue db DEF_COLOR_ATTRIBUTE_ID
            (replaceSpace (v1.optionAt color_idx)) = true :=
        fun v1 hv1m hval => hvals v1 (List.mem_cons_of_mem v hv1m) hval
      obtain ⟨db3, hloop, hst3, hav3, hwh3, hpr3, hni3, ops3, htr3, hnb3⟩ :=
        ih db acc hwh hvals2
      refine ⟨db3, ?_, hst3, hav3, hwh3, hpr3, ?_, ops3, htr3, hnb3⟩
      · simp only [create_variants_loop, hstep]
        rw [hloop, List.filter_cons_of_neg (by simpa [validVariant] using hv)]
      · rw [hni3, List.filter_cons_of_neg (by simpa [validVariant] using hv)]

/-- C8: for a remote product whose size/colour slots are resolved, with the
default warehouse present and every valid variant's option values seeded,
`create_variants` succeeds and appends exactly one Stock row per valid
variant — all referencing the configured default warehouse, each quantity
copied from the corresponding remote `inventory_quantity` — persisted as a
single bulk write recorded after all per-variant insert events. -/
theorem stocks_single_bulk_write (product_id : Nat) (sp : RemoteProduct) (db : DB)
    (hsi : 0 < (get_size_color_index sp).1) (hci : 0 < (get_size_color_index sp).2)
    (hwh : DEF_WAREHOUSE_ID ∈ db.warehouses)
    (hvals : ∀ v ∈ sp.variants, validVariant v = true →
      attrHasValue db DEF_SIZE_ATTRIBUTE_ID
        (replaceSpace (v.optionAt (get_size_color_index sp).1)) = true ∧
      attrHasValue db DEF_COLOR_ATTRIBUTE_ID
        (replaceSpace (v.optionAt (get_size_color_index sp).2)) = true) :
    ∃ db1,
      create_variants product_id sp db = (db1, none) ∧
      db1.stocks = db.stocks ++
        importedStocks db.next_id (sp.variants.filter validVariant) ∧
      (importedStocks db.next_id (sp.variants.filter validVariant)).length =
        (sp.variants.filter validVariant).length ∧
      (∀ s ∈ importedStocks db.next_id (sp.variants.filter validVariant),
        s.warehouse_id = DEF_WAREHOUSE_ID) ∧
      (importedStocks db.next_id (sp.variants.filter validVariant)).map
          (fun s => s.quantity) =
        (sp.variants.filter validVariant).map (fun v => v.inventory_quantity) ∧
      ∃ ops, db1.trace = db.trace ++ ops ++
          [Op.stockBulkInsert (sp.variants.filter validVariant).length] ∧
        ∀ k, Op.stockBulkInsert k ∉ ops := by
  unfold create_variants
  rcases hsc : get_size_color_index sp with ⟨si, ci⟩
  rw [hsc] at hsi hci hvals
  simp only at hsi hci hvals
  have hguard : (! (decide (si > 0) && decide (ci > 0))) = false := by
    simp [hsi, hci]
  simp only [hguard, Bool.false_eq_true, if_false]
  obtain ⟨db2, hloop, hst2, _, _, _, _, ops2, htr2, hnb2⟩ :=
    create_variants_loop_ok si ci product_id sp.variants db [] hwh hvals
  rw [hloop]
  refine ⟨_, rfl, ?_, importedStocks_length _ _, importedStocks_warehouse _ _,
    importedStocks_quantities _ _, ops2, ?_, hnb2⟩
  · dsimp only
    rw [hst2, List.nil_append]
  · dsimp only
    rw [htr2, List.nil_append, importedStocks_length]

/-- Witness for C8: importing the three-valid-variant product into the
seeded database creates exactly three stock rows in one bulk write. -/
theorem stocks_single_bulk_write_witness :
    ∃ db1,
      create_variants 1 teeProduct seededDB = (db1, none) ∧
      db1.stocks = seededDB.stocks ++
        importedStocks seededDB.next_id (teeProduct.variants.filter validVariant) ∧
      (importedStocks seededDB.next_id
        (teeProduct.variants.filter validVariant)).length =
        (teeProduct.variants.filter validVariant).length ∧
      (∀ s ∈ importedStocks seededDB.next_id
          (teeProduct.variants.filter validVariant),
        s.warehouse_id = DEF_WAREHOUSE_ID) ∧
      (importedStocks seededDB.next_id
          (teeProduct.variants.filter validVariant)).map (fun s => s.quantity) =
        (teeProduct.variants.filter validVariant).map
          (fun v => v.inventory_quantity) ∧
      ∃ ops, db1.trace = seededDB.trace ++ ops ++
          [Op.stockBulkInsert (teeProduct.variants.filter validVariant).length] ∧
        ∀ k, Op.stockBulkInsert k ∉ ops :=
  stocks_single_bulk_write 1 teeProduct seededDB (by decide) (by decide)
    (by decide) (by decide)

theorem new_remote_products_nil (db : DB) (rps : List RemoteProduct)
    (h : ∀ p ∈ rps, ∃ q ∈ db.products, q.shopifyid = some (Nat.repr p.id)) :
    new_remote_products db rps = [] := by
  unfold new_remote_products
  dsimp only
  rw [List.filter_eq_nil_iff]
  intro p hp
  obtain ⟨q, hq, hqid⟩ := h p hp
  simp only [Bool.not_eq_true', Bool.not_eq_false]
  have hmem : Nat.repr p.id ∈
      (get_product_by_shopify_id db (rps.map fun p1 => Nat.repr p1.id)).filterMap
        (fun q1 => q1.shopifyid) := by
    refine List.mem_filterMap.mpr ⟨q, ?_, hqid⟩
    unfold get_product_by_shopify_id
    refine List.mem_filter.mpr ⟨hq, ?_⟩
    rw [hqid]
    simp only [List.contains, List.elem_eq_mem, decide_eq_true_eq]
    exact List.mem_map.mpr ⟨p, hp, rfl⟩
  simpa [List.contains, List.elem_eq_mem] using hmem

theorem create_attribute_values_nil (aid : Nat) (db : DB) (h : aid ∈ db.attributes) :
    create_attribute_values aid [] db = (db, none) := by
  unfold create_attribute_values
  rw [if_pos h]
  rfl

theorem create_color_sizes_nil (db : DB) (h13 : DEF_SIZE_ATTRIBUTE_ID ∈ db.attributes)
    (h14 : DEF_COLOR_ATTRIBUTE_ID ∈ db.attributes) :
    create_color_sizes [] db = (db, none) := by
  unfold create_color_sizes
  dsimp only
  rw [show collect_values [] = ([], []) from rfl]
  rw [create_attribute_values_nil _ _ h13]
  exact create_attribute_values_nil _ _ h14

theorem create_products_inner_nil (db : DB)
    (ht : DEF_PRODUCT_TYPE_ID ∈ db.product_types)
    (hc : DEF_PRODUCT_CATEGORY_ID ∈ db.categories) :
    create_products_inner [] db = ((db, []), none) := by
  unfold create_products_inner
  rw [if_pos ht, if_pos hc]
  rfl

theorem atomicallyU_ok (f : DB → DB × Option PyErr) (db db1 : DB)
    (h : f db = (db1, none)) : atomicallyU f db = (db1, none) := by
  unfold atomicallyU
  rw [h]

theorem atomicallyV_ok (f : DB → (DB × List Nat) × Option PyErr) (db : DB)
    (r : DB × List Nat) (h : f db = (r, none)) : atomicallyV f db = (r, none) := by
  unfold atomicallyV
  rw [h]

theorem create_collection_spec (rc : RemoteCollection) (pids : List Nat) (db : DB)
    (hmenu : "navbar" ∈ db.menus) :
    create_collection rc pids db =
      ({ db with
          collections := db.collections ++
            [⟨db.next_id, pick_collection_name (db.collections.map (·.name)) rc.title,
              slugify (pick_collection_name (db.collections.map (·.name)) rc.title),
              (match rc.body_html with | some s => s | none => "None"),
              Nat.repr rc.id⟩],
          collection_products := db.collection_products ++
            pids.map (fun p => (db.next_id, p)),
          menu_items := db.menu_items ++
            [⟨pick_collection_name (db.collections.map (·.name)) rc.title,
              db.next_id, DEF_MENU_ITEM_ID⟩],
          next_id := db.next_id + 1,
          trace := db.trace ++ [Op.collectionInsert db.next_id,
            Op.collectionProductBulkInsert pids.length, Op.menuItemInsert] }, none) := by
  unfold create_collection
  dsimp only
  rw [if_pos hmenu]
  simp [List.append_assoc]

/-- C1: when every remote product of the collection already carries its
external id as some local product's `shopifyid` metadata, a re-run creates
zero new Product rows, yet every such already-imported product is attached
to the (fresh) destination collection created by that run. -/
theorem import_rerun_idempotent (db : DB) (rc : RemoteCollection)
    (rps : List RemoteProduct) (hcfg : configOk db)
    (hfresh : ∀ c ∈ db.collections, c.id ≠ db.next_id)
    (himp : ∀ p ∈ rps, ∃ q ∈ db.products, q.shopifyid = some (Nat.repr p.id)) :
    ∃ db1,
      perform_mutation db rc rps = (db1, .ok []) ∧
      db1.products = db.products ∧
      db.next_id ∈ db1.collections.map (·.id) ∧
      db.next_id ∉ db.collections.map (·.id) ∧
      ∀ q ∈ db.products, (∃ p ∈ rps, q.shopifyid = some (Nat.repr p.id)) →
        (db.next_id, q.id) ∈ db1.collection_products := by
  obtain ⟨h13, h14, ht, hcat, hmenu⟩ := hcfg
  have hnew : new_remote_products db rps = [] := new_remote_products_nil db rps himp
  have hspec := create_collection_spec rc
    (([] : List Nat) ++
      (get_product_by_shopify_id db (rps.map fun p1 => Nat.repr p1.id)).map (·.id))
    db hmenu
  refine ⟨(create_collection rc
    (([] : List Nat) ++
      (get_product_by_shopify_id db (rps.map fun p1 => Nat.repr p1.id)).map (·.id))
    db).1, ?_, ?_, ?_, ?_, ?_⟩
  · unfold perform_mutation
    dsimp only
    rw [hnew, create_color_sizes_nil db h13 h14]
    dsimp only
    rw [atomicallyV_ok _ _ _ (create_products_inner_nil db ht hcat)]
    dsimp only
    have hcc : create_collection rc
        (([] : List Nat) ++
          (get_product_by_shopify_id db (rps.map fun p1 => Nat.repr p1.id)).map (·.id))
        db =
        ((create_collection rc
          (([] : List Nat) ++
            (get_product_by_shopify_id db (rps.map fun p1 => Nat.repr p1.id)).map (·.id))
          db).1, none) := by
      rw [hspec]
    rw [atomicallyU_ok _ _ _ hcc]
  · rw [hspec]
  · rw [hspec]
    simp
  · intro hmem
    obtain ⟨c, hc, hcid⟩ := List.mem_map.mp hmem
    exact hfresh c hc hcid
  · intro q hq ⟨p, hp, hqid⟩
    rw [hspec]
    dsimp only
    refine List.mem_append.mpr (Or.inr ?_)
    refine List.mem_map.mpr ⟨q.id, ?_, rfl⟩
    refine List.mem_append.mpr (Or.inr ?_)
    refine List.mem_map.mpr ⟨q, ?_, rfl⟩
    unfold get_product_by_shopify_id
    refine List.mem_filter.mpr ⟨hq, ?_⟩
    rw [hqid]
    simp only [List.contains, List.elem_eq_mem, decide_eq_true_eq]
    exact List.mem_map.mpr ⟨p, hp, rfl⟩

/-- Witness for C1: re-importing the already-imported product 77 creates
no product and attaches the existing product to the new collection. -/
theorem import_rerun_idempotent_witness :
    ∃ db1,
      perform_mutation importedDB summerCollection [teeProduct] = (db1, .ok []) ∧
      db1.products = importedDB.products ∧
      importedDB.next_id ∈ db1.collections.map (·.id) ∧
      importedDB.next_id ∉ importedDB.collections.map (·.id) ∧
      ∀ q ∈ importedDB.products,
        (∃ p ∈ [teeProduct], q.shopifyid = some (Nat.repr p.id)) →
        (importedDB.next_id, q.id) ∈ db1.collection_products :=
  import_rerun_idempotent importedDB summerCollection [teeProduct]
    ⟨by decide, by decide, by decide, by decide, by decide⟩ (by decide) (by decide)

theorem create_attribute_values_foldl_fields (aid : Nat) :
    ∀ (values : List String) (db : DB),
    (values.foldl (create_attribute_value_step aid) db).products = db.products ∧
    (values.foldl (create_attribute_value_step aid) db).variants = db.variants ∧
    (values.foldl (create_attribute_value_step aid) db).stocks = db.stocks := by
  intro values
  induction values with
  | nil => intro db; exact ⟨rfl, rfl, rfl⟩
  | cons v vs ih =>
    intro db
    simp only [List.foldl_cons]
    obtain ⟨hp, hv, hs⟩ := ih (create_attribute_value_step aid db v)
    have hstep : (create_attribute_value_step aid db v).products = db.products ∧
        (create_attribute_value_step aid db v).variants = db.variants ∧
        (create_attribute_value_step aid db v).stocks = db.stocks := by
      unfold create_attribute_value_step
      dsimp only
      by_cases h : attrHasValue db aid (replaceSpace v) = true
      · simp [h]
      · simp only [h]
        simp
    exact ⟨hp.trans hstep.1, hv.trans hstep.2.1, hs.trans hstep.2.2⟩

theorem create_attribute_values_fields (aid : Nat) (values : List String) (db : DB) :
    (create_attribute_values aid values db).1.products = db.products ∧
    (create_attribute_values aid values db).1.variants = db.variants ∧
    (create_attribute_values aid values db).1.stocks = db.stocks := by
  unfold create_attribute_values
  by_cases h : aid ∈ db.attributes
  · rw [if_pos h]
    exact create_attribute_values_foldl_fields aid values db
  · rw [if_neg h]
    exact ⟨rfl, rfl, rfl⟩

theorem create_color_sizes_fields (sps : List RemoteProduct) (db : DB) :
    (create_color_sizes sps db).1.products = db.products ∧
    (create_color_sizes sps db).1.variants = db.variants ∧
    (create_color_sizes sps db).1.stocks = db.stocks := by
  unfold create_color_sizes
  dsimp only
  rcases hcav : create_attribute_values DEF_SIZE_ATTRIBUTE_ID
      (collect_values sps).1 db with ⟨db1, e⟩
  have hf1 := create_attribute_values_fields DEF_SIZE_ATTRIBUTE_ID
    (collect_values sps).1 db
  rw [hcav] at hf1
  cases e with
  | none =>
    have hf2 := create_attribute_values_fields DEF_COLOR_ATTRIBUTE_ID
      (collect_values sps).2 db1
    exact ⟨hf2.1.trans hf1.1, hf2.2.1.trans hf1.2.1, hf2.2.2.trans hf1.2.2⟩
  | some e => exact hf1

/-- C4: counterexample.  Attribute-value seeding is NOT inside the
transaction that wraps the creation loop: on a run whose creation stage
aborts (missing configured product type), the run fails and zero products
are persisted, yet the attribute values seeded in step 3 remain — which
could not happen if steps 3 and 4 shared one transaction boundary. -/
theorem seeding_outside_transaction_counterexample :
    (perform_mutation noTypeDB summerCollection [teeProduct]).2 =
      .error (.doesNotExist "ProductType") ∧
    (perform_mutation noTypeDB summerCollection [teeProduct]).1.attribute_values ≠
      noTypeDB.attribute_values ∧
    (perform_mutation noTypeDB summerCollection [teeProduct]).1.products =
      noTypeDB.products :=
  ⟨rfl, by decide, rfl⟩

/-- C4 (amended): only the creation loop (`create_products`) runs inside a
transaction; when it aborts, the final state is exactly the post-seeding
state — zero products, variants or stocks from the batch are persisted,
but the attribute values seeded by step 3 survive the rollback. -/
theorem only_creation_stage_transactional (db : DB) (rc : RemoteCollection)
    (rps : List RemoteProduct) (db1 : DB) (r : DB × List Nat) (e : PyErr)
    (h1 : create_color_sizes (new_remote_products db rps) db = (db1, none))
    (h2 : create_products_inner (new_remote_products db rps) db1 = (r, some e)) :
    perform_mutation db rc rps = (db1, .error e) ∧
    db1.products = db.products ∧
    db1.variants = db.variants ∧
    db1.stocks = db.stocks := by
  rcases r with ⟨rdb, rv⟩
  constructor
  · unfold perform_mutation
    dsimp only
    rw [h1]
    dsimp only
    have hat : atomicallyV (create_products_inner (new_remote_products db rps)) db1 =
        ((db1, rv), some e) := by
      unfold atomicallyV
      rw [h2]
    rw [hat]
  · have hf := create_color_sizes_fields (new_remote_products db rps) db
    rw [h1] at hf
    exact hf

/-- Witness for the amended C4 at the concrete aborting run. -/
theorem only_creation_stage_transactional_witness :
    perform_mutation noTypeDB summerCollection [teeProduct] =
      (noTypeSeededDB, .error (.doesNotExist "ProductType")) ∧
    noTypeSeededDB.products = noTypeDB.products ∧
    noTypeSeededDB.variants = noTypeDB.variants ∧
    noTypeSeededDB.stocks = noTypeDB.stocks :=
  only_creation_stage_transactional noTypeDB summerCollection [teeProduct]
    noTypeSeededDB (noTypeSeededDB, []) (.doesNotExist "ProductType") rfl rfl

theorem create_variant_step_products (size_idx color_idx product_id : Nat)
    (acc : DB × List LocalStock) (v : RemoteVariant) :
    ((create_variant_step size_idx color_idx product_id acc v).1.1).products =
      acc.1.products := by
  rcases acc with ⟨db, ns⟩
  unfold create_variant_step
  dsimp only
  by_cases h : (! (truthy v.sku && truthy v.price)) = true
  · simp [h]
  · simp only [h, Bool.false_eq_true, if_false]
    rcases get_attribute_value db DEF_SIZE_ATTRIBUTE_ID (v.optionAt size_idx) with e | y1
    · rfl
    · rcases y1 with ⟨a1, y1⟩
      rcases get_attribute_value db DEF_COLOR_ATTRIBUTE_ID (v.optionAt color_idx)
        with e | y2
      · rfl
      · rcases y2 with ⟨a2, y2⟩
        rcases get_default_warehouse db with e | w
        · rfl
        · rfl

theorem create_variants_loop_products (size_idx color_idx product_id : Nat) :
    ∀ (vs : List RemoteVariant) (acc : DB × List LocalStock),
    (((create_variants_loop size_idx color_idx product_id vs acc).1.1)).products =
      acc.1.products := by
  intro vs
  induction vs with
  | nil => intro acc; rfl
  | cons v vs ih =>
    intro acc
    rcases hstep : create_variant_step size_idx color_idx product_id acc v
      with ⟨acc1, e⟩
    have hpr : acc1.1.products = acc.1.products := by
      have := create_variant_step_products size_idx color_idx product_id acc v
      rw [hstep] at this
      exact this
    cases e with
    | none =>
      simp only [create_variants_loop, hstep]
      rw [ih acc1, hpr]
    | some e =>
      simp only [create_variants_loop, hstep]
      exact hpr

theorem create_variants_products_unchanged (product_id : Nat) (sp : RemoteProduct)
    (db : DB) : (create_variants product_id sp db).1.products = db.products := by
  unfold create_variants
  rcases get_size_color_index sp with ⟨si, ci⟩
  by_cases h : (! (decide (si > 0) && decide (ci > 0))) = true
  · simp [h]
  · simp only [h, Bool.false_eq_true, if_false]
    rcases hloop : create_variants_loop si ci product_id sp.variants (db, [])
      with ⟨⟨db1, ns⟩, e⟩
    have hpr : db1.products = db.products := by
      have := create_variants_loop_products si ci product_id sp.variants (db, [])
      rw [hloop] at this
      exact this
    cases e with
    | none => exact hpr
    | some e => exact hpr

/-- C9: counterexample.  The Shopify import changes a product's variant set
but never assigns `default_variant`: importing a product with three valid
variants leaves the created product's `default_variant` null instead of
assigning it the first remaining variant. -/
theorem import_leaves_default_variant_unset :
    ((perform_mutation baseDB summerCollection [teeProduct]).1.products.map
      (fun p => (p.id, p.default_variant))) = [(1, none)] ∧
    ((perform_mutation baseDB summerCollection [teeProduct]).1.variants.map
      (fun v => v.product_id)) = [1, 1, 1] ∧
    (perform_mutation baseDB summerCollection [teeProduct]).2 = .ok [1] :=
  ⟨rfl, rfl, rfl⟩

theorem defaultConsistent_iff (db : DB) : defaultConsistent db = true ↔
    ∀ p ∈ db.products, ∀ d, p.default_variant = some d →
      ∃ v ∈ db.variants, v.id = d ∧ v.product_id = p.id := by
  unfold defaultConsistent
  rw [List.all_eq_true]
  constructor
  · intro h p hp d hd
    have hz := h p hp
    rw [hd] at hz
    simpa using hz
  · intro h p hp
    rcases hdv : p.default_variant with _ | d
    · simp
    · have hz := h p hp d hdv
      simpa using hz

theorem bulk_delete_default_consistent (db : DB) (pks : List Nat)
    (h : defaultConsistent db = true) :
    defaultConsistent (ProductVariantBulkDelete.perform_mutation db pks) = true := by
  rw [defaultConsistent_iff] at h ⊢
  intro p1 hp1 d hd
  unfold ProductVariantBulkDelete.perform_mutation
    ProductVariantBulkDelete.delete_variants at hp1 ⊢
  dsimp only at hp1 ⊢
  obtain ⟨q, hq, hq2⟩ := List.mem_map.mp hp1
  obtain ⟨p0, hp0, hp01⟩ := List.mem_map.mp hq
  have hpid : ∀ r : LocalProduct, r = p1 → r.id = p1.id := fun r hr => by rw [hr]
  split at hq2
  · have hp1id : q.id = p1.id := by rw [← hq2]
    rw [← hq2] at hd
    dsimp only at hd
    obtain ⟨v, hvh, hvid⟩ := Option.map_eq_some'.mp hd
    have hvmem : v ∈ (db.variants.filter (fun v => !pks.contains v.id)).filter
        (fun v => v.product_id == q.id) := List.mem_of_mem_head? hvh
    obtain ⟨hv1, hv2⟩ := List.mem_filter.mp hvmem
    refine ⟨v, hv1, hvid, ?_⟩
    rw [← hp1id]
    exact (beq_iff_eq ..).mp hv2  -- hmm hv2 : (v.product_id == q.id) = true
  · subst hq2
    rcases hdv0 : p0.default_variant with _ | d0
    · rw [hdv0] at hp01
      dsimp only at hp01
      subst hp01
      rw [hdv0] at hd
      cases hd
    · rw [hdv0] at hp01
      dsimp only at hp01
      split at hp01
      · subst hp01
        simp at hd
      · next hcont =>
        subst hp01
        rw [hdv0] at hd
        injection hd with hdd
        subst hdd
        obtain ⟨v, hv, hvid, hvpid⟩ := h p0 hp0 d0 hdv0
        refine ⟨v, ?_, hvid, hvpid⟩
        refine List.mem_filter.mpr ⟨hv, ?_⟩
        have hcf : pks.contains d0 = false := by
          cases hcc : pks.contains d0
          · rfl
          · exact absurd hcc hcont
        rw [hvid, hcf]
        rfl

theorem bulk_delete_reassigns_first_remaining (db : DB) (pks : List Nat)
    (p1 : LocalProduct)
    (hp1 : p1 ∈ (ProductVariantBulkDelete.perform_mutation db pks).products)
    (haff : ∃ v ∈ db.variants, v.product_id = p1.id ∧ v.id ∈ pks)
    (hnone : p1.default_variant = none) :
    ∀ v ∈ (ProductVariantBulkDelete.perform_mutation db pks).variants,
      v.product_id ≠ p1.id := by
  unfold ProductVariantBulkDelete.perform_mutation
    ProductVariantBulkDelete.delete_variants at hp1 ⊢
  dsimp only at hp1 ⊢
  obtain ⟨q, hq, hq2⟩ := List.mem_map.mp hp1
  obtain ⟨p0, hp0, hp01⟩ := List.mem_map.mp hq
  have hqid : q.id = p0.id := by
    rcases hdv0 : p0.default_variant with _ | d0
    · rw [hdv0] at hp01; dsimp only at hp01; rw [← hp01]
    · rw [hdv0] at hp01
      dsimp only at hp01
      split at hp01
      · rw [← hp01]
      · rw [← hp01]
  split at hq2
  · next hcond =>
    rw [← hq2] at hnone
    dsimp only at hnone
    have hfilter : (db.variants.filter (fun v => !pks.contains v.id)).filter
        (fun v => v.product_id == q.id) = [] := by
      cases hh : (db.variants.filter (fun v => !pks.contains v.id)).filter
          (fun v => v.product_id == q.id) with
      | nil => rfl
      | cons a l =>
        rw [hh] at hnone
        simp at hnone
    intro v hv hvp
    have hp1q : p1.id = q.id := by rw [← hq2]
    have : v ∈ (db.variants.filter (fun v => !pks.contains v.id)).filter
        (fun v => v.product_id == q.id) := by
      refine List.mem_filter.mpr ⟨hv, ?_⟩
      rw [hvp, hp1q]
      exact beq_self_eq_true q.id
    rw [hfilter] at this
    cases this
  · next hcond =>
    exfalso
    subst hq2
    apply hcond
    have hqnone : (q.default_variant == none) = true := by
      rw [hnone]
      rfl
    rw [hqnone, Bool.and_true]
    obtain ⟨v, hvmem, hvpid, hvpk⟩ := haff
    have hmem : p0 ∈ db.products.filter
        (fun p => db.variants.any fun v => pks.contains v.id && v.product_id == p.id) := by
      refine List.mem_filter.mpr ⟨hp0, ?_⟩
      refine List.any_eq_true.mpr ⟨v, hvmem, ?_⟩
      rw [hvpid, ← hqid]
      simp [List.contains, List.elem_eq_mem, hvpk]
    have : q.id ∈ (db.products.filter
        (fun p => db.variants.any fun v => pks.contains v.id && v.product_id == p.id)).map
        (fun x => x.id) := by
      rw [hqid]
      exact List.mem_map.mpr ⟨p0, hmem, rfl⟩
    simpa [List.contains, List.elem_eq_mem] using this

theorem create_variant_stocks_fields (db : DB) (vid : Nat)
    (ci : ProductVariantBulkCreate.CleanedInput) :
    (ProductVariantBulkCreate.create_variant_stocks db vid ci).1.products =
      db.products ∧
    (ProductVariantBulkCreate.create_variant_stocks db vid ci).1.variants =
      db.variants ∧
    (ProductVariantBulkCreate.create_variant_stocks db vid ci).1.next_id =
      db.next_id := by
  unfold ProductVariantBulkCreate.create_variant_stocks
  by_cases h1 : ci.stocks.isEmpty = true
  · simp [h1]
  · simp only [h1, Bool.false_eq_true, if_false]
    by_cases h2 : ci.stocks.all (fun s => decide (s.1 ∈ db.warehouses)) = true
    · simp [h2]
    · simp [h2]

theorem save_variants_loop_spec (product_id : Nat) :
    ∀ (pairs : List (ProductVariantBulkCreate.VariantInstance ×
        Option ProductVariantBulkCreate.CleanedInput)) (db : DB) (ids : List Nat)
      (db1 : DB) (ids1 : List Nat),
    ProductVariantBulkCreate.save_variants_loop product_id pairs db ids =
      ((db1, ids1), none) →
    db1.products = db.products ∧
    (∃ tail, db1.variants = db.variants ++ tail) ∧
    ∃ newIds, ids1 = ids ++ newIds ∧
      (pairs ≠ [] → newIds.head? = some db.next_id) ∧
      ∀ i ∈ newIds, ∃ v ∈ db1.variants, v.id = i ∧ v.product_id = product_id := by
  intro pairs
  induction pairs with
  | nil =>
    intro db ids db1 ids1 hloop
    unfold ProductVariantBulkCreate.save_variants_loop at hloop
    injection hloop with h1 _
    injection h1 with h1 h2
    subst h1
    subst h2
    refine ⟨rfl, ⟨[], by simp⟩, [], by simp, by simp, by simp⟩
  | cons p rest ih =>
    intro db ids db1 ids1 hloop
    rcases p with ⟨inst, ci⟩
    cases ci with
    | none =>
      unfold ProductVariantBulkCreate.save_variants_loop at hloop
      injection hloop with _ h2
      cases h2
    | some ci =>
      unfold ProductVariantBulkCreate.save_variants_loop at hloop
      dsimp only [ProductVariantBulkCreate.save] at hloop
      rcases hcs : ProductVariantBulkCreate.create_variant_stocks
          { db with
            variants := db.variants ++ [⟨db.next_id, product_id, inst.sku, "", "", 0⟩],
            next_id := db.next_id + 1,
            trace := db.trace ++ [Op.variantInsert db.next_id] } db.next_id ci
        with ⟨db2, e⟩
      rw [hcs] at hloop
      have hfields := create_variant_stocks_fields
        { db with
          variants := db.variants ++ [⟨db.next_id, product_id, inst.sku, "", "", 0⟩],
          next_id := db.next_id + 1,
          trace := db.trace ++ [Op.variantInsert db.next_id] } db.next_id ci
      rw [hcs] at hfields
      obtain ⟨hfp, hfv, hfn⟩ := hfields
      cases e with
      | some e =>
        dsimp only at hloop
        injection hloop with _ h2
        cases h2
      | none =>
        dsimp only at hloop
        obtain ⟨hp, ⟨tail, hv⟩, newIds, hids, hhead, hmem⟩ :=
          ih db2 (ids ++ [db.next_id]) db1 ids1 hloop
        refine ⟨hp.trans hfp, ⟨[⟨db.next_id, product_id, inst.sku, "", "", 0⟩] ++ tail, ?_⟩,
          db.next_id :: newIds, ?_, ?_, ?_⟩
        · rw [hv, hfv]
          simp [List.append_assoc]
        · rw [hids]
          simp
        · intro _
          rfl
        · intro i hi
          rcases List.mem_cons.mp hi with hi | hi
          · subst hi
            refine ⟨⟨db.next_id, product_id, inst.sku, "", "", 0⟩, ?_, rfl, rfl⟩
            rw [hv, hfv]
            simp
          · exact hmem i hi

theorem bulk_create_assigns_first_instance (db : DB) (product : LocalProduct)
    (instances : List ProductVariantBulkCreate.VariantInstance)
    (cleaned : List (Option ProductVariantBulkCreate.CleanedInput)) (db1 : DB)
    (hdef : product.default_variant = none) (hne : instances ≠ [])
    (hok : ProductVariantBulkCreate.save_variants db product instances cleaned =
      (db1, none)) :
    (∀ p1 ∈ db1.products, p1.id = product.id →
      p1.default_variant = some db.next_id) ∧
    ∃ v ∈ db1.variants, v.id = db.next_id ∧ v.product_id = product.id := by
  unfold ProductVariantBulkCreate.save_variants at hok
  by_cases hlen : (instances.length != cleaned.length) = true
  · rw [if_pos hlen] at hok
    injection hok with _ h2
    cases h2
  · rw [if_neg hlen] at hok
    have hlen2 : instances.length = cleaned.length := by
      simpa using hlen
    rcases hloop : ProductVariantBulkCreate.save_variants_loop product.id
        (instances.zip cleaned) db [] with ⟨⟨db2, saved⟩, e⟩
    rw [hloop] at hok
    cases e with
    | some e =>
      dsimp only at hok
      injection hok with _ h2
      cases h2
    | none =>
      dsimp only at hok
      rw [hdef] at hok
      dsimp only [Option.isSome] at hok
      obtain ⟨hp, ⟨tail, hv⟩, newIds, hids, hhead, hmem⟩ :=
        save_variants_loop_spec product.id (instances.zip cleaned) db [] db2 saved hloop
      have hzipne : instances.zip cleaned ≠ [] := by
        cases instances with
        | nil => exact absurd rfl hne
        | cons a as =>
          cases cleaned with
          | nil => simp at hlen2
          | cons b bs => simp [List.zip]
      have hheads := hhead hzipne
      cases newIds with
      | nil => simp at hheads
      | cons i0 rest =>
        have hi0 : i0 = db.next_id := by
          simpa using hheads
        subst hi0
        rw [hids] at hok
        simp only [List.nil_append] at hok
        injection hok with h1 _
        subst h1
        constructor
        · intro p1 hp1 hpid
          obtain ⟨p0, hp0, hp02⟩ := List.mem_map.mp hp1
          by_cases hc : (p0.id == product.id) = true
          · rw [if_pos hc] at hp02
            rw [← hp02]
          · rw [if_neg (by simpa using hc)] at hp02
            subst hp02
            exact absurd hpid (by simpa using hc)
        · obtain ⟨v, hvm, hvi, hvp⟩ := hmem db.next_id (List.mem_cons_self _ _)
          exact ⟨v, hvm, hvi, hvp⟩

theorem import_created_products_default_none (def_type def_cat : Nat)
    (db : DB) (created : List Nat) (sp : RemoteProduct) (p1 : LocalProduct)
    (hp1 : p1 ∈ ((create_product_step def_type def_cat (db, created) sp).1.1).products) :
    p1 ∈ db.products ∨ p1.default_variant = none := by
  unfold create_product_step at hp1
  dsimp only at hp1
  split at hp1 <;>
  · next heq =>
    dsimp only at hp1
    have h2 := congrArg (fun r => r.1.products) heq
    dsimp only at h2
    rw [create_variants_products_unchanged] at h2
    rw [← h2] at hp1
    dsimp only at hp1
    rcases List.mem_append.mp hp1 with hmem | hmem
    · exact Or.inl hmem
    · refine Or.inr ?_
      have : p1 = ⟨db.next_id, sp.title, slugify (sp.title ++ Nat.repr sp.id),
          (if truthy sp.body_html then sp.body_html.getD "" else ""),
          def_type, def_cat, some (Nat.repr sp.id), none⟩ := by
        simpa using hmem
      rw [this]

theorem bulk_delete_assigns_first_survivor (db : DB) (pks : List Nat)
    (p0 : LocalProduct) (hp0 : p0 ∈ db.products)
    (haff : ∃ v ∈ db.variants, v.product_id = p0.id ∧ v.id ∈ pks)
    (hnull : p0.default_variant = none ∨
      ∃ d, p0.default_variant = some d ∧ d ∈ pks) :
    ∃ p1 ∈ (ProductVariantBulkDelete.perform_mutation db pks).products,
      p1.id = p0.id ∧
      p1.default_variant =
        ProductVariantBulkDelete.first_surviving_variant db pks p0.id := by
  obtain ⟨w, hwmem, hwpid, hwpk⟩ := haff
  have hcont : ((db.products.filter
      (fun p => db.variants.any fun v => pks.contains v.id && v.product_id == p.id)).map
      (fun x => x.id)).contains p0.id = true := by
    have hmem2 : p0 ∈ db.products.filter
        (fun p => db.variants.any fun v => pks.contains v.id && v.product_id == p.id) := by
      refine List.mem_filter.mpr ⟨hp0, ?_⟩
      refine List.any_eq_true.mpr ⟨w, hwmem, ?_⟩
      rw [hwpid]
      simp [List.contains, List.elem_eq_mem, hwpk]
    have hmap : p0.id ∈ (db.products.filter
        (fun p => db.variants.any fun v => pks.contains v.id && v.product_id == p.id)).map
        (fun x => x.id) := List.mem_map.mpr ⟨p0, hmem2, rfl⟩
    simpa [List.contains, List.elem_eq_mem] using hmap
  unfold ProductVariantBulkDelete.perform_mutation
    ProductVariantBulkDelete.delete_variants
  dsimp only
  rcases hnull with hdv | ⟨d, hdv, hdpk⟩
  · refine ⟨{ p0 with default_variant :=
        ProductVariantBulkDelete.first_surviving_variant db pks p0.id },
      List.mem_map.mpr ⟨p0, List.mem_map.mpr ⟨p0, hp0, ?_⟩, ?_⟩, rfl, rfl⟩
    · simp only [hdv]
    · dsimp only
      rw [hdv]
      rw [if_pos (by rw [hcont]; decide)]
      unfold ProductVariantBulkDelete.first_surviving_variant
      rw [List.filter_filter]
  · refine ⟨{ p0 with default_variant :=
        ProductVariantBulkDelete.first_surviving_variant db pks p0.id },
      List.mem_map.mpr ⟨{ p0 with default_variant := none },
        List.mem_map.mpr ⟨p0, hp0, ?_⟩, ?_⟩, rfl, rfl⟩
    · simp only [hdv]
      rw [if_pos (by simpa [List.contains, List.elem_eq_mem] using hdpk)]
    · dsimp only
      rw [if_pos (by rw [hcont]; decide)]
      unfold ProductVariantBulkDelete.first_surviving_variant
      rw [List.filter_filter]

/-- C9 (amended): the default-variant policy holds for the two variant
bulk mutations but NOT for the Shopify import.  Bulk variant delete
preserves the invariant that `default_variant` is null or one of the
product's own (surviving) variants — so it never dangles to a deleted
variant; an affected product whose default became null (it was null
already, or pointed to a deleted variant) is assigned exactly the FIRST
remaining variant — the head of its surviving variants in table order —
staying null only when no variant remains.  Bulk variant create assigns
the first newly created variant when the default was null.  The
Shopify import never assigns `default_variant`: every product it
creates carries a null default even when variants were created. -/
theorem default_variant_policy :
    (∀ (db : DB) (pks : List Nat), defaultConsistent db = true →
      defaultConsistent (ProductVariantBulkDelete.perform_mutation db pks) = true) ∧
    (∀ (db : DB) (pks : List Nat) (p1 : LocalProduct),
      p1 ∈ (ProductVariantBulkDelete.perform_mutation db pks).products →
      (∃ v ∈ db.variants, v.product_id = p1.id ∧ v.id ∈ pks) →
      p1.default_variant = none →
      ∀ v ∈ (ProductVariantBulkDelete.perform_mutation db pks).variants,
        v.product_id ≠ p1.id) ∧
    (∀ (db : DB) (pks : List Nat) (p0 : LocalProduct),
      p0 ∈ db.products →
      (∃ v ∈ db.variants, v.product_id = p0.id ∧ v.id ∈ pks) →
      (p0.default_variant = none ∨
        ∃ d, p0.default_variant = some d ∧ d ∈ pks) →
      ∃ p1 ∈ (ProductVariantBulkDelete.perform_mutation db pks).products,
        p1.id = p0.id ∧
        p1.default_variant =
          ProductVariantBulkDelete.first_surviving_variant db pks p0.id) ∧
    (∀ (db : DB) (product : LocalProduct)
        (instances : List ProductVariantBulkCreate.VariantInstance)
        (cleaned : List (Option ProductVariantBulkCreate.CleanedInput)) (db1 : DB),
      product.default_variant = none → instances ≠ [] →
      ProductVariantBulkCreate.save_variants db product instances cleaned =
        (db1, none) →
      (∀ p1 ∈ db1.products, p1.id = product.id →
        p1.default_variant = some db.next_id) ∧
      ∃ v ∈ db1.variants, v.id = db.next_id ∧ v.product_id = product.id) ∧
    (∀ (def_type def_cat : Nat) (db : DB) (created : List Nat)
        (sp : RemoteProduct) (p1 : LocalProduct),
      p1 ∈ ((create_product_step def_type def_cat (db, created) sp).1.1).products →
      p1 ∈ db.products ∨ p1.default_variant = none) :=
  ⟨bulk_delete_default_consistent, bulk_delete_reassigns_first_remaining,
   bulk_delete_assigns_first_survivor,
   bulk_create_assigns_first_instance, import_created_products_default_none⟩

/-- Witness for the amended C9, at concrete deletes, creates and imports. -/
theorem default_variant_policy_witness :
    defaultConsistent (ProductVariantBulkDelete.perform_mutation twoProductsDB [2]) =
      true ∧
    (∀ v ∈ (ProductVariantBulkDelete.perform_mutation twoProductsDB [2]).variants,
      v.product_id ≠ (⟨1, "P1", "p1", "", 16, 24, none, none⟩ : LocalProduct).id) ∧
    ((∃ p1 ∈ (ProductVariantBulkDelete.perform_mutation reassignDB [2]).products,
        p1.id = reassignProduct.id ∧
        p1.default_variant =
          ProductVariantBulkDelete.first_surviving_variant reassignDB [2]
            reassignProduct.id) ∧
      ((ProductVariantBulkDelete.perform_mutation reassignDB [2]).products.map
        (fun p => p.default_variant)) = [some 3]) ∧
    ((∀ p1 ∈ (ProductVariantBulkCreate.save_variants bareProductDB bareProduct
        [⟨"SKU"⟩] [some ⟨[]⟩]).1.products, p1.id = bareProduct.id →
        p1.default_variant = some bareProductDB.next_id) ∧
      ∃ v ∈ (ProductVariantBulkCreate.save_variants bareProductDB bareProduct
        [⟨"SKU"⟩] [some ⟨[]⟩]).1.variants,
        v.id = bareProductDB.next_id ∧ v.product_id = bareProduct.id) ∧
    ((⟨1, "Hat", "hat5", "", 16, 24, some "5", none⟩ : LocalProduct) ∈
        baseDB.products ∨
      (⟨1, "Hat", "hat5", "", 16, 24, some "5", none⟩ :
        LocalProduct).default_variant = none) :=
  ⟨default_variant_policy.1 twoProductsDB [2] (by decide),
   default_variant_policy.2.1 twoProductsDB [2]
     ⟨1, "P1", "p1", "", 16, 24, none, none⟩ (by decide) (by decide) rfl,
   ⟨default_variant_policy.2.2.1 reassignDB [2] reassignProduct (by decide)
      (by decide) (Or.inr ⟨2, rfl, by decide⟩), rfl⟩,
   default_variant_policy.2.2.2.1 bareProductDB bareProduct [⟨"SKU"⟩] [some ⟨[]⟩]
     (ProductVariantBulkCreate.save_variants bareProductDB bareProduct
       [⟨"SKU"⟩] [some ⟨[]⟩]).1 rfl (by simp) rfl,
   default_variant_policy.2.2.2.2 16 24 baseDB [] hatProduct
     ⟨1, "Hat", "hat5", "", 16, 24, some "5", none⟩ (by decide)⟩

theorem repr_data_ne_nil (n : Nat) : (Nat.repr n).data ≠ [] := by
  have : (Nat.repr n).data = Nat.toDigitsCore 10 (n + 1) n [] := rfl
  rw [this]
  have h := (toDigitsCore_length_ge (n + 1) n []).2 (by omega)
  intro hnil
  rw [hnil] at h
  simp at h

theorem map_toLower_fixed : ∀ {l : List Char}, (∀ c ∈ l, Char.toLower c = c) →
    l.map Char.toLower = l := by
  intro l
  induction l with
  | nil => intro _; rfl
  | cons c l ih =>
    intro h
    simp only [List.map_cons, h c (List.mem_cons_self c l),
      ih (fun x hx => h x (List.mem_cons_of_mem c hx))]

theorem numberedName_data (t : String) (k : Nat) :
    (numberedName t k).data = (t.data ++ ['(']) ++ ((Nat.repr k).data ++ [')']) := by
  unfold numberedName
  rw [String.data_append, String.data_append, String.data_append]
  have h1 : ("(" : String).data = ['('] := rfl
  have h2 : (")" : String).data = [')'] := rfl
  rw [h1, h2]
  simp [List.append_assoc]

theorem strLower_numberedName_inj (t : String) (m m1 : Nat)
    (h : strLower (numberedName t m) = strLower (numberedName t m1)) : m = m1 := by
  have hd : (numberedName t m).data.map Char.toLower =
      (numberedName t m1).data.map Char.toLower := congrArg String.data h
  rw [numberedName_data, numberedName_data] at hd
  simp only [List.map_append] at hd
  have hfix : ∀ k : Nat, (Nat.repr k).data.map Char.toLower = (Nat.repr k).data :=
    fun k => map_toLower_fixed (repr_toLower_fixed k)
  have hpar1 : (['('] : List Char).map Char.toLower = ['('] := by decide
  have hpar2 : ([')'] : List Char).map Char.toLower = [')'] := by decide
  rw [hfix m, hfix m1, hpar1, hpar2] at hd
  have hmid := List.append_cancel_left hd
  have hdata : (Nat.repr m).data = (Nat.repr m1).data :=
    (List.append_inj' hmid rfl).1
  exact nat_repr_injective (String.ext hdata)

theorem strLower_title_ne_numberedName (t : String) (m : Nat) :
    strLower t ≠ strLower (numberedName t m) := by
  intro h
  have hd : (t.data.map Char.toLower).length =
      ((numberedName t m).data.map Char.toLower).length := by
    rw [show t.data.map Char.toLower = (strLower t).data from rfl,
      show (numberedName t m).data.map Char.toLower = (strLower (numberedName t m)).data
        from rfl, h]
  rw [List.length_map, List.length_map, numberedName_data] at hd
  simp only [List.length_append, List.length_cons, List.length_nil] at hd
  omega

theorem strLower_loopName_inj (t : String) (m m1 : Nat) (_hm : 1 ≤ m) (_hm1 : 1 ≤ m1)
    (h : strLower (loopName t m) = strLower (loopName t m1)) : m = m1 := by
  unfold loopName at h
  by_cases h1 : m = 1 <;> by_cases h2 : m1 = 1
  · rw [h1, h2]
  · rw [if_pos h1, if_neg h2] at h
    exact absurd h (strLower_title_ne_numberedName t m1)
  · rw [if_neg h1, if_pos h2] at h
    exact absurd h.symm (strLower_title_ne_numberedName t m)
  · rw [if_neg h1, if_neg h2] at h
    exact strLower_numberedName_inj t m m1 h

theorem loop_candidates_bound (existing : List String) (t : String) (N : Nat)
    (hbusy : ∀ m, 1 ≤ m → m < N → nameCollides existing (loopName t m) = true) :
    N ≤ existing.length + 1 := by
  by_cases hN : N ≤ 1
  · omega
  have hnodup : ((List.range' 1 (N - 1)).map
      (fun m => strLower (loopName t m))).Nodup := by
    refine List.Nodup.map_on ?_ (List.nodup_range' 1 (N - 1) 1 (by norm_num))
    intro x hx y hy hxy
    have hxr := (List.mem_range'_1).mp hx
    have hyr := (List.mem_range'_1).mp hy
    exact strLower_loopName_inj t x y hxr.1 hyr.1 hxy
  have hsub : ((List.range' 1 (N - 1)).map (fun m => strLower (loopName t m))) ⊆
      existing.map strLower := by
    intro x hx
    obtain ⟨m, hm, hxe⟩ := List.mem_map.mp hx
    have hmr := (List.mem_range'_1).mp hm
    have hcol := hbusy m hmr.1 (by omega)
    obtain ⟨c, hc, hceq⟩ := List.any_eq_true.mp (by
      unfold nameCollides at hcol
      exact hcol)
    have hce : strLower c = strLower (loopName t m) := by
      simpa using hceq
    rw [← hxe, ← hce]
    exact List.mem_map.mpr ⟨c, hc, rfl⟩
  have hlen := (hnodup.subperm hsub).length_le
  rw [List.length_map, List.length_map, List.length_range'] at hlen
  omega

theorem pick_name_loop_spec (existing : List String) (t : String) :
    ∀ (k i fuel : Nat), 1 ≤ i → k < fuel →
    (∀ m, i ≤ m → m < i + k → nameCollides existing (loopName t m) = true) →
    nameCollides existing (loopName t (i + k)) = false →
    pick_name_loop existing t fuel i (loopName t i) = loopName t (i + k) := by
  intro k
  induction k with
  | zero =>
    intro i fuel hi hf _ hfree
    cases fuel with
    | zero => omega
    | succ f =>
      unfold pick_name_loop
      rw [show i + 0 = i from rfl] at hfree
      rw [hfree]
      simp
  | succ k ih =>
    intro i fuel hi hf hbusy hfree
    cases fuel with
    | zero => omega
    | succ f =>
      unfold pick_name_loop
      have hcol : nameCollides existing (loopName t i) = true :=
        hbusy i le_rfl (by omega)
      rw [hcol]
      have hln : numberedName t (i + 1) = loopName t (i + 1) := by
        unfold loopName
        rw [if_neg (by omega)]
      rw [if_pos rfl, hln]
      have harith : i + 1 + k = i + (k + 1) := by omega
      have hmain := ih (i + 1) f (by omega) (by omega)
        (fun m hm1 hm2 => hbusy m (by omega) (by omega))
        (by rw [harith]; exact hfree)
      rw [harith] at hmain
      exact hmain

theorem pick_collection_name_min (existing : List String) (t : String) (N : Nat)
    (hN : 2 ≤ N)
    (hfree : nameCollides existing (numberedName t N) = false)
    (hbusy : ∀ m, 1 ≤ m → m < N → nameCollides existing (loopName t m) = true) :
    pick_collection_name existing t = numberedName t N := by
  have hbound : N ≤ existing.length + 1 := loop_candidates_bound existing t N hbusy
  have hln1 : loopName t 1 = t := by
    unfold loopName
    rw [if_pos rfl]
  have hlnN : loopName t N = numberedName t N := by
    unfold loopName
    rw [if_neg (by omega)]
  unfold pick_collection_name
  have hmain := pick_name_loop_spec existing t (N - 1) 1 (existing.length + 1)
    le_rfl (by omega)
    (fun m hm1 hm2 => hbusy m hm1 (by omega))
    (by rw [show 1 + (N - 1) = N from by omega, hlnN]; exact hfree)
  rw [show 1 + (N - 1) = N from by omega, hln1, hlnN] at hmain
  exact hmain

/-- C2: when the remote collection title collides case-insensitively with
an existing collection name (`loopName title 1` is the bare title), and N
is the smallest counter ≥ 2 whose suffixed candidate `title(N)` is free,
the disambiguation loop picks exactly `title(N)` and `create_collection`
creates the new collection under that name; with existing collections
"Summer" and "Summer(2)", an import titled "Summer" creates "Summer(3)"
(see the witness). -/
theorem collection_name_smallest_suffix (db : DB) (rc : RemoteCollection)
    (product_ids : List Nat) (N : Nat)
    (hmenu : "navbar" ∈ db.menus)
    (hN : 2 ≤ N)
    (hfree : nameCollides (db.collections.map (·.name))
      (numberedName rc.title N) = false)
    (hbusy : ∀ m, 1 ≤ m → m < N →
      nameCollides (db.collections.map (·.name)) (loopName rc.title m) = true) :
    pick_collection_name (db.collections.map (·.name)) rc.title =
      numberedName rc.title N ∧
    ∃ newc : LocalCollection,
      (create_collection rc product_ids db).1.collections =
        db.collections ++ [newc] ∧
      newc.name = numberedName rc.title N ∧
      (create_collection rc product_ids db).2 = none := by
  have hpick := pick_collection_name_min _ _ N hN hfree hbusy
  refine ⟨hpick, ?_⟩
  rw [create_collection_spec rc product_ids db hmenu]
  exact ⟨_, rfl, hpick, rfl⟩

/-- Witness for C2: with "Summer" and "Summer(2)" existing, importing a
collection titled "Summer" creates one named "Summer(3)". -/
theorem collection_name_smallest_suffix_witness :
    pick_collection_name (summerDB.collections.map (·.name))
      summerCollection.title = numberedName summerCollection.title 3 ∧
    ∃ newc : LocalCollection,
      (create_collection summerCollection [] summerDB).1.collections =
        summerDB.collections ++ [newc] ∧
      newc.name = numberedName summerCollection.title 3 ∧
      (create_collection summerCollection [] summerDB).2 = none :=
  collection_name_smallest_suffix summerDB summerCollection [] 3 (by decide)
    (by omega) (by decide)
    (by
      intro m h1 h2
      interval_cases m <;> decide)

end Saleor
